import Mathlib

/-!
# Transactional Inventory & Sales Ledger — verification of `pharmacy.py`

A shallow embedding of the ledger core of `src/pharmacy.py` (the catalog
CRUD, stock-adjustment, invoice-sequencing, sale-recording and sale-reversal
functions), together with proofs about the specification's claims.

Modelling conventions:
* The SQLite database is a value of type `PharmacyDB`: the `products`,
  `sales` and `stock_adjustments` tables are lists of rows in insertion
  order; `nextProductId` models the `AUTOINCREMENT` counter for products.
* Python `int` columns become `ℤ`/`ℕ`; `REAL` money columns become `ℚ`
  (exact arithmetic; Python's `round(x, 2)` is modelled by `pyRound2`,
  round-half-to-even at two decimals, which is Python's rounding mode).
* A function that raises `ValueError` becomes `Except LedgerError _`.
  The error constructor follows the spec's taxonomy (§7) for each raise
  site.  Because the Python functions run inside a transaction
  (`with conn:` / explicit rollback), an error leaves the database
  unchanged; the `run…` wrappers below make that explicit by returning
  the old state on error, exactly like the caller's `try/except` blocks.
* `generate_invoice` reads `date.today()` from the environment; the model
  takes the formatted `YYMMDD` string as an explicit argument.
-/

/-- A row of the `products` table (`init_db`, `pharmacy.py` lines 54-70). -/
structure Product where
  id : Nat
  name : String
  categoryId : Option Nat
  quantity : Int
  price : ℚ
  cost : ℚ
  reorderLevel : Int
  supplier : Option String
  expiryDate : Option String
  deriving DecidableEq

/-- A row of the `stock_adjustments` table (lines 91-104). -/
structure AdjustmentRecord where
  productId : Nat
  adjustmentQty : Int
  reason : String
  deriving DecidableEq

/-- A row of the `sales` table (lines 72-89).  There is deliberately no
UNIQUE constraint on `invoice`: several rows share one invoice. -/
structure SaleLineRecord where
  invoice : String
  productId : Nat
  qty : Int
  unitPrice : ℚ
  unitCost : ℚ
  discount : ℚ
  total : ℚ
  deriving DecidableEq

/-- The database state: the three ledger-relevant tables plus the
`AUTOINCREMENT` counter for product ids. -/
structure PharmacyDB where
  products : List Product
  sales : List SaleLineRecord
  stockAdjustments : List AdjustmentRecord
  nextProductId : Nat
  deriving DecidableEq

/-- Error taxonomy of spec §7, covering every `raise ValueError` site of the
ledger core. -/
inductive LedgerError where
  | invalidArgument
  | notFound
  | insufficientStock
  | conflict
  deriving DecidableEq

/-- Python's `str.strip()`: drop leading and trailing whitespace. -/
def isSpaceChar (c : Char) : Bool :=
  c == ' ' || c == '\t' || c == '\n' || c == '\r' || c == '\x0b' || c == '\x0c'

/-- Python's `str.strip()` on a string, via its character list. -/
def stripStr (s : String) : String :=
  ⟨((s.data.dropWhile isSpaceChar).reverse.dropWhile isSpaceChar).reverse⟩

/-- Floor of a rational: `den` is positive, so Euclidean division of `num`
by `den` is the floor. -/
def ratFloor (x : ℚ) : ℤ := x.num / (x.den : ℤ)

/-- Python's `round(x)` to an integer: round-half-to-even. -/
def pyRoundInt (x : ℚ) : ℤ :=
  let f : ℤ := ratFloor x
  let frac : ℚ := x - (f : ℚ)
  if frac < 1 / 2 then f
  else if 1 / 2 < frac then f + 1
  else if f % 2 = 0 then f else f + 1

/-- Python's `round(x, 2)` (banker's rounding at two decimal places). -/
def pyRound2 (x : ℚ) : ℚ := (pyRoundInt (x * 100) : ℚ) / 100

/-- `UPDATE products SET ... WHERE id=?`: rewrite every row whose `id`
matches, by `h`. -/
def updateById (ps : List Product) (productId : Nat) (h : Product → Product) :
    List Product :=
  ps.map fun p => if p.id == productId then h p else p

/-- `get_product` (lines 368-372): `SELECT * FROM products WHERE id=?`,
`fetchone` returns the first matching row. -/
def get_product (db : PharmacyDB) (productId : Nat) : Option Product :=
  db.products.find? (fun p => p.id == productId)

/-- The quantity of a product, when present (a convenience projection used
in the statements below). -/
def productQty (db : PharmacyDB) (productId : Nat) : Option Int :=
  (get_product db productId).map (·.quantity)

/-- `add_product` (lines 384-410): validates, inserts the product and, when
the starting quantity is positive, one "Initial Stock Entry" adjustment,
atomically.  Returns the fresh product id. -/
def add_product (db : PharmacyDB) (name : String) (categoryId : Option Nat)
    (quantity : Int) (price cost : ℚ) (reorderLevel : Int)
    (supplier : String) (expiryDate : Option String) :
    Except LedgerError (PharmacyDB × Nat) :=
  if stripStr name = "" then .error .invalidArgument
  else if price < 0 ∨ cost < 0 ∨ quantity < 0 ∨ reorderLevel < 0 then
    .error .invalidArgument
  else
    let pid := db.nextProductId
    let p : Product :=
      { id := pid, name := stripStr name, categoryId := categoryId,
        quantity := quantity, price := price, cost := cost,
        reorderLevel := reorderLevel,
        supplier := if stripStr supplier = "" then none else some (stripStr supplier),
        expiryDate := expiryDate }
    let adjs :=
      if quantity > 0 then
        db.stockAdjustments ++ [⟨pid, quantity, "Initial Stock Entry"⟩]
      else db.stockAdjustments
    .ok ({ db with
           products := db.products ++ [p]
           stockAdjustments := adjs
           nextProductId := pid + 1 }, pid)

/-- `update_product` (lines 412-445): validates, rewrites every field of the
product (quantity included) and, when the quantity changed, logs the delta
as one adjustment, atomically. -/
def update_product (db : PharmacyDB) (productId : Nat) (name : String)
    (categoryId : Option Nat) (price cost : ℚ) (newQuantity reorderLevel : Int)
    (supplier : String) (expiryDate : Option String) :
    Except LedgerError PharmacyDB :=
  if stripStr name = "" then .error .invalidArgument
  else if price < 0 ∨ cost < 0 ∨ newQuantity < 0 ∨ reorderLevel < 0 then
    .error .invalidArgument
  else
    match get_product db productId with
    | none => .error .notFound
    | some row =>
      let adjustmentQty := newQuantity - row.quantity
      let products := updateById db.products productId fun p =>
        { p with
          name := stripStr name
          categoryId := categoryId
          price := price
          cost := cost
          quantity := newQuantity
          reorderLevel := reorderLevel
          supplier := if stripStr supplier = "" then none else some (stripStr supplier)
          expiryDate := expiryDate }
      let adjs :=
        if adjustmentQty ≠ 0 then
          db.stockAdjustments ++
            [⟨productId, adjustmentQty,
              "Manual Edit/Correction (New Qty: " ++ toString newQuantity ++ ")"⟩]
        else db.stockAdjustments
      .ok { db with products := products, stockAdjustments := adjs }

/-- `delete_product` (lines 448-463): hard-blocked (`Conflict`) while any
sale row references the product; otherwise removes the product's adjustment
rows and the product itself (error, with nothing committed, if the product
row does not exist). -/
def delete_product (db : PharmacyDB) (productId : Nat) :
    Except LedgerError PharmacyDB :=
  if db.sales.any (fun s => s.productId == productId) then .error .conflict
  else if db.products.any (fun p => p.id == productId) then
    .ok { db with
          products := db.products.filter (fun p => !(p.id == productId))
          stockAdjustments :=
            db.stockAdjustments.filter (fun a => !(a.productId == productId)) }
  else .error .notFound

/-- `adjust_stock` (lines 465-488): rejects a zero delta and a blank reason,
requires the product to exist and the new quantity to be non-negative; on
success sets the quantity to `current + adj_qty` and appends exactly one
adjustment row, atomically. -/
def adjust_stock (db : PharmacyDB) (productId : Nat) (adjQty : Int)
    (reason : String) : Except LedgerError PharmacyDB :=
  if adjQty = 0 then .error .invalidArgument
  else if stripStr reason = "" then .error .invalidArgument
  else
    match get_product db productId with
    | none => .error .notFound
    | some row =>
      let newQty := row.quantity + adjQty
      if newQty < 0 then .error .insufficientStock
      else
        .ok { db with
              products := updateById db.products productId
                (fun p => { p with quantity := newQty })
              stockAdjustments :=
                db.stockAdjustments ++ [⟨productId, adjQty, stripStr reason⟩] }

/-- ASCII lower-casing of one character, as SQLite's default `LIKE` does. -/
def asciiLower (c : Char) : Char :=
  if 'A' ≤ c ∧ c ≤ 'Z' then Char.ofNat (c.toNat + 32) else c

/-- Does `l` start with `pat`? (plain, case-sensitive comparison). -/
def startsWithChars : List Char → List Char → Bool
  | [], _ => true
  | _ :: _, [] => false
  | a :: as, b :: bs => a == b && startsWithChars as bs

/-- SQLite `invoice LIKE 'pat%'` with the default `LIKE` semantics:
case-insensitive comparison of ASCII letters. -/
def likeStartCI (pat s : String) : Bool :=
  startsWithChars (pat.data.map asciiLower) (s.data.map asciiLower)

/-- Python's `"{:03d}".format n`: decimal digits, left-padded with zeros to
at least three characters. -/
def pad3 (n : Nat) : String :=
  if n < 10 then "00" ++ toString n
  else if n < 100 then "0" ++ toString n
  else toString n

/-- `generate_invoice` (lines 511-518): `SELECT COUNT(DISTINCT invoice) FROM
sales WHERE invoice LIKE 'INV-YYMMDD-%'`, plus one, formatted `{:03d}`.
The `YYMMDD` string for `date.today()` is an explicit argument. -/
def generate_invoice (todayStr : String) (db : PharmacyDB) : String :=
  let pat := "INV-" ++ todayStr ++ "-"
  let count :=
    ((db.sales.filter (fun s => likeStartCI pat s.invoice)).map
      (·.invoice)).dedup.length + 1
  "INV-" ++ todayStr ++ "-" ++ pad3 count

/-- A line item of `record_sale`'s `items` argument (one cart entry). -/
structure SaleItem where
  productId : Nat
  qty : Int
  unitPrice : ℚ
  unitCost : ℚ
  discount : ℚ
  deriving DecidableEq

/-- `final_total` of one line (line 539): the per-unit discount is rounded
to cents first, then the line total is rounded to cents independently. -/
def lineTotal (it : SaleItem) : ℚ :=
  pyRound2 ((it.qty : ℚ) * (it.unitPrice - pyRound2 it.discount))

/-- The `sales` row inserted for one line item (lines 556-562). -/
def saleRow (invoice : String) (it : SaleItem) : SaleLineRecord :=
  ⟨invoice, it.productId, it.qty, it.unitPrice, it.unitCost,
    pyRound2 it.discount, lineTotal it⟩

/-- The `UPDATE products SET quantity = quantity - ? WHERE id=?` of one sale
line (line 565). -/
def decrementStock (db : PharmacyDB) (it : SaleItem) : PharmacyDB :=
  { db with
    products := updateById db.products it.productId
      (fun p => { p with quantity := p.quantity - it.qty }) }

/-- One iteration of `record_sale`'s loop (lines 531-566): validate the line
against the current (already-decremented) state, then insert the sale row
and decrement the stock. -/
def applySaleLine (db : PharmacyDB) (invoice : String) (it : SaleItem) :
    Except LedgerError PharmacyDB :=
  if it.qty ≤ 0 then .error .invalidArgument
  else if lineTotal it < 0 then .error .invalidArgument
  else
    match get_product db it.productId with
    | none => .error .notFound
    | some row =>
      if it.qty > row.quantity then .error .insufficientStock
      else .ok { decrementStock db it with
                 sales := db.sales ++ [saleRow invoice it] }

/-- The loop of `record_sale`, threading the transaction state and
collecting the `totals` list. -/
def record_sale_go (invoice : String) (db : PharmacyDB) :
    List SaleItem → Except LedgerError (PharmacyDB × List ℚ)
  | [] => .ok (db, [])
  | it :: rest =>
    match applySaleLine db invoice it with
    | .error e => .error e
    | .ok db₁ =>
      match record_sale_go invoice db₁ rest with
      | .error e => .error e
      | .ok (db₂, ts) => .ok (db₂, lineTotal it :: ts)

/-- `record_sale` (lines 520-570): rejects an empty batch, then runs the
loop inside one transaction (any error rolls everything back); returns the
sum of the per-line totals. -/
def record_sale (db : PharmacyDB) (invoice : String) (items : List SaleItem) :
    Except LedgerError (PharmacyDB × ℚ) :=
  if items.isEmpty then .error .invalidArgument
  else
    match record_sale_go invoice db items with
    | .error e => .error e
    | .ok (db', totals) => .ok (db', totals.sum)

/-- `undo_sale` (lines 572-599): `NotFound` when no sale row carries the
invoice; otherwise increments each referenced product's quantity by the
row's qty (a blind `UPDATE ... WHERE id=?`, a no-op for an absent product)
and deletes every row of the invoice, atomically.  The final
`rowcount == 0` re-check can never fire (the row list is non-empty), so it
has no counterpart here. -/
def undo_sale (db : PharmacyDB) (invoice : String) :
    Except LedgerError PharmacyDB :=
  let saleRows := db.sales.filter (fun s => s.invoice == invoice)
  if saleRows.isEmpty then .error .notFound
  else
    .ok { db with
          products := saleRows.foldl
            (fun ps sale => updateById ps sale.productId
              (fun p => { p with quantity := p.quantity + sale.qty }))
            db.products
          sales := db.sales.filter (fun s => !(s.invoice == invoice)) }

/-! ### Caller-side wrappers

The UI calls each mutator inside `try/except`: on error the transaction was
rolled back and the caller continues with the unchanged database.  These
wrappers return that caller-observed state. -/

/-- `adjust_stock`, keeping the old state on error. -/
def runAdjust (db : PharmacyDB) (productId : Nat) (adjQty : Int)
    (reason : String) : PharmacyDB :=
  match adjust_stock db productId adjQty reason with
  | .ok db' => db'
  | .error _ => db

/-- `record_sale`, keeping the old state on error; the second component is
the returned revenue, `none` on error. -/
def runRecordSale (db : PharmacyDB) (invoice : String)
    (items : List SaleItem) : PharmacyDB × Option ℚ :=
  match record_sale db invoice items with
  | .ok (db', t) => (db', some t)
  | .error _ => (db, none)

/-- `undo_sale`, keeping the old state on error. -/
def runUndo (db : PharmacyDB) (invoice : String) : PharmacyDB :=
  match undo_sale db invoice with
  | .ok db' => db'
  | .error _ => db

/-- `delete_product`, keeping the old state on error. -/
def runDelete (db : PharmacyDB) (productId : Nat) : PharmacyDB :=
  match delete_product db productId with
  | .ok db' => db'
  | .error _ => db

/-- `add_product`, keeping the old state on error. -/
def runAddProduct (db : PharmacyDB) (name : String) (categoryId : Option Nat)
    (quantity : Int) (price cost : ℚ) (reorderLevel : Int)
    (supplier : String) (expiryDate : Option String) : PharmacyDB :=
  match add_product db name categoryId quantity price cost reorderLevel
      supplier expiryDate with
  | .ok (db', _) => db'
  | .error _ => db

/-! ### The accounting invariant (spec §3 and §8)

`quantity == sum(adjustment deltas) − sum(committed sale quantities)`:
reversed sales have been deleted from `sales`, so the net of the committed
sale quantities is just the sum over the rows currently present. -/

/-- Sum of the Adjustment Ledger deltas recorded for one product. -/
def adjTotal (db : PharmacyDB) (pid : Nat) : ℤ :=
  (db.stockAdjustments.map fun a =>
    if a.productId = pid then a.adjustmentQty else 0).sum

/-- Sum of the quantities of the Sale Ledger rows currently present for one
product. -/
def saleTotal (db : PharmacyDB) (pid : Nat) : ℤ :=
  (db.sales.map fun s => if s.productId = pid then s.qty else 0).sum

/-- The accounting identity: every product's quantity equals its adjustment
deltas minus its currently-present sale quantities. -/
def AccountingInv (db : PharmacyDB) : Prop :=
  ∀ p ∈ db.products, p.quantity = adjTotal db p.id - saleTotal db p.id

/-- Well-formedness of the `AUTOINCREMENT` counter: every id already used in
any table is below `nextProductId`.  This holds in every database the
application ever produces (SQLite never reuses an `AUTOINCREMENT` id). -/
def FreshIds (db : PharmacyDB) : Prop :=
  (∀ p ∈ db.products, p.id < db.nextProductId) ∧
  (∀ a ∈ db.stockAdjustments, a.productId < db.nextProductId) ∧
  (∀ s ∈ db.sales, s.productId < db.nextProductId)

/-- The six mutating operations of the ledger core, as one alphabet. -/
inductive LedgerOp where
  | addProduct (name : String) (categoryId : Option Nat) (quantity : Int)
      (price cost : ℚ) (reorderLevel : Int) (supplier : String)
      (expiryDate : Option String)
  | updateProduct (productId : Nat) (name : String) (categoryId : Option Nat)
      (price cost : ℚ) (newQuantity reorderLevel : Int) (supplier : String)
      (expiryDate : Option String)
  | adjustStock (productId : Nat) (adjQty : Int) (reason : String)
  | recordSale (invoice : String) (items : List SaleItem)
  | undoSale (invoice : String)
  | deleteProduct (productId : Nat)

/-- Run one ledger operation, keeping only the database component. -/
def applyOp (db : PharmacyDB) : LedgerOp → Except LedgerError PharmacyDB
  | .addProduct n c q pr co rl sup ed =>
    (add_product db n c q pr co rl sup ed).map (·.1)
  | .updateProduct pid n c pr co nq rl sup ed =>
    update_product db pid n c pr co nq rl sup ed
  | .adjustStock pid q r => adjust_stock db pid q r
  | .recordSale inv items => (record_sale db inv items).map (·.1)
  | .undoSale inv => undo_sale db inv
  | .deleteProduct pid => delete_product db pid

/-! ### Helper lemmas -/

theorem ratFloor_eq_floor (x : ℚ) : ratFloor x = ⌊x⌋ := Rat.floor_def.symm

theorem pyRoundInt_nonneg {x : ℚ} (hx : 0 ≤ x) : 0 ≤ pyRoundInt x := by
  have h : (0 : ℤ) ≤ ⌊x⌋ := Int.floor_nonneg.mpr hx
  simp only [pyRoundInt, ratFloor_eq_floor]
  split_ifs <;> omega

theorem pyRound2_nonneg {x : ℚ} (hx : 0 ≤ x) : 0 ≤ pyRound2 x := by
  unfold pyRound2
  have h : 0 ≤ pyRoundInt (x * 100) := pyRoundInt_nonneg (by positivity)
  positivity

/-- `find?` commutes with a map that does not change the predicate's
verdict. -/
theorem find_map_of_pred {α : Type} (g : α → α) (q : α → Bool)
    (h : ∀ a, q (g a) = q a) :
    ∀ l : List α, (l.map g).find? q = (l.find? q).map g := by
  intro l
  induction l with
  | nil => rfl
  | cons a l ih =>
    by_cases hq : q a = true
    · rw [List.map_cons, List.find?_cons_of_pos _ ((h a).trans hq),
        List.find?_cons_of_pos _ hq, Option.map_some']
    · have hq' : ¬ q a = true := hq
      rw [List.map_cons,
        List.find?_cons_of_neg _ (by rw [h a]; exact hq'),
        List.find?_cons_of_neg _ hq', ih]

/-- `get_product` after an `UPDATE ... WHERE id=?` whose rewrite keeps the
`id` field. -/
theorem get_product_updateById (ps : List Product) (pid tid : Nat)
    (h : Product → Product) (hid : ∀ p, (h p).id = p.id) :
    (updateById ps pid h).find? (fun p => p.id == tid) =
      (ps.find? (fun p => p.id == tid)).map
        (fun p => if p.id == pid then h p else p) := by
  apply find_map_of_pred
  intro p
  by_cases hp : p.id == pid
  · simp only [hp, if_pos, hid]
  · simp only [if_neg hp]

/-- Replacing a product's quantity by itself is the identity. -/
theorem product_eta (p : Product) : ({ p with quantity := p.quantity }) = p :=
  rfl

/-- Adding `d` to the quantity of every row with the given id. -/
def adjQtyMap (pid : Nat) (d : ℤ) (ps : List Product) : List Product :=
  updateById ps pid (fun p => { p with quantity := p.quantity + d })

/-- Apply a list of (product id, quantity delta) pairs in order. -/
def applyDeltas (ds : List (Nat × ℤ)) (ps : List Product) : List Product :=
  ds.foldl (fun ps cd => adjQtyMap cd.1 cd.2 ps) ps

/-- The net delta a list of (id, delta) pairs applies to one id. -/
def deltaSum (ds : List (Nat × ℤ)) (pid : Nat) : ℤ :=
  (ds.map fun cd => if cd.1 = pid then cd.2 else 0).sum

/-- Applying quantity deltas in sequence adds, per product, the net delta
for its id. -/
theorem applyDeltas_eq_map (ds : List (Nat × ℤ)) : ∀ ps : List Product,
    applyDeltas ds ps =
      ps.map fun p => { p with quantity := p.quantity + deltaSum ds p.id } := by
  induction ds with
  | nil =>
    intro ps
    simp only [applyDeltas, List.foldl_nil, deltaSum, List.map_nil,
      List.sum_nil, add_zero, product_eta]
    exact (List.map_id' ps).symm
  | cons cd ds ih =>
    intro ps
    have hstep : applyDeltas (cd :: ds) ps = applyDeltas ds (adjQtyMap cd.1 cd.2 ps) :=
      rfl
    rw [hstep, ih, adjQtyMap, updateById, List.map_map]
    congr 1
    funext p
    by_cases hp : (p.id == cd.1) = true
    · have hp' : cd.1 = p.id := (by simpa using hp : p.id = cd.1).symm
      simp only [Function.comp_apply, if_pos hp, deltaSum, List.map_cons,
        List.sum_cons, if_pos hp']
      show ({ p with quantity := p.quantity + cd.2 + _ } : Product) = _
      rw [add_assoc]
    · have hp' : ¬ cd.1 = p.id := fun hc => hp (by simp [hc.symm])
      simp only [Function.comp_apply, if_neg hp, deltaSum, List.map_cons,
        List.sum_cons, if_neg hp', zero_add]

/-- A partition of a sum over a list by a Boolean predicate. -/
theorem sum_map_filter_split {α : Type} (q : α → Bool) (f : α → ℤ) :
    ∀ l : List α,
      ((l.filter q).map f).sum + ((l.filter (fun a => !q a)).map f).sum
        = (l.map f).sum := by
  intro l
  induction l with
  | nil => simp
  | cons a l ih =>
    by_cases hq : q a = true
    · rw [List.filter_cons_of_pos hq,
        List.filter_cons_of_neg (by simp [hq])]
      simp only [List.map_cons, List.sum_cons]
      omega
    · rw [List.filter_cons_of_neg hq,
        List.filter_cons_of_pos (by simp [Bool.not_eq_true] at hq; simp [hq])]
      simp only [List.map_cons, List.sum_cons]
      omega

/-- The products component of a sale-line decrement, as a delta map. -/
theorem decrementStock_products (db : PharmacyDB) (it : SaleItem) :
    (decrementStock db it).products =
      adjQtyMap it.productId (-it.qty) db.products := by
  show updateById _ _ _ = updateById _ _ _
  unfold updateById
  congr 1

/-- What a successful sale line does to the transaction state. -/
theorem applySaleLine_ok {db db₁ : PharmacyDB} {inv : String} {it : SaleItem}
    (h : applySaleLine db inv it = .ok db₁) :
    db₁.products = adjQtyMap it.productId (-it.qty) db.products ∧
    db₁.sales = db.sales ++ [saleRow inv it] ∧
    db₁.stockAdjustments = db.stockAdjustments ∧
    db₁.nextProductId = db.nextProductId := by
  rw [applySaleLine] at h
  split at h
  · exact absurd h (by simp)
  · split at h
    · exact absurd h (by simp)
    · split at h
      · exact absurd h (by simp)
      · split at h
        · exact absurd h (by simp)
        · have h' := (Except.ok.injEq _ _).mp h
          subst h'
          exact ⟨decrementStock_products db it, rfl, rfl, rfl⟩

/-- What a successful `record_sale` loop does to the transaction state. -/
theorem record_sale_go_ok (inv : String) :
    ∀ (items : List SaleItem) (db db' : PharmacyDB) (ts : List ℚ),
      record_sale_go inv db items = .ok (db', ts) →
      db'.products =
        applyDeltas (items.map fun it => (it.productId, -it.qty)) db.products ∧
      db'.sales = db.sales ++ items.map (saleRow inv) ∧
      db'.stockAdjustments = db.stockAdjustments ∧
      db'.nextProductId = db.nextProductId ∧
      ts = items.map lineTotal := by
  intro items
  induction items with
  | nil =>
    intro db db' ts h
    simp only [record_sale_go, Except.ok.injEq, Prod.mk.injEq] at h
    obtain ⟨h1, h2⟩ := h
    subst h1; subst h2
    simp [applyDeltas]
  | cons it rest ih =>
    intro db db' ts h
    cases ha : applySaleLine db inv it with
    | error e =>
      simp only [record_sale_go, ha] at h
      exact absurd h (by simp)
    | ok db₁ =>
      cases hg : record_sale_go inv db₁ rest with
      | error e =>
        simp only [record_sale_go, ha, hg] at h
        exact absurd h (by simp)
      | ok pr =>
        obtain ⟨db₂, ts₂⟩ := pr
        simp only [record_sale_go, ha, hg, Except.ok.injEq,
          Prod.mk.injEq] at h
        obtain ⟨h1, h2⟩ := h
        obtain ⟨ha1, ha2, ha3, ha4⟩ := applySaleLine_ok ha
        obtain ⟨hg1, hg2, hg3, hg4, hg5⟩ := ih _ _ _ hg
        subst h1
        subst h2
        refine ⟨?_, ?_, ?_, ?_, ?_⟩
        · rw [hg1, ha1]
          rfl
        · rw [hg2, ha2, List.append_assoc]
          rfl
        · rw [hg3, ha3]
        · rw [hg4, ha4]
        · rw [hg5]
          rfl

/-- What a successful `record_sale` does to the database. -/
theorem record_sale_ok {db db' : PharmacyDB} {inv : String}
    {items : List SaleItem} {r : ℚ}
    (h : record_sale db inv items = .ok (db', r)) :
    items ≠ [] ∧
    db'.products =
      applyDeltas (items.map fun it => (it.productId, -it.qty)) db.products ∧
    db'.sales = db.sales ++ items.map (saleRow inv) ∧
    db'.stockAdjustments = db.stockAdjustments ∧
    db'.nextProductId = db.nextProductId ∧
    r = (items.map lineTotal).sum := by
  rw [record_sale] at h
  split at h
  · exact absurd h (by simp)
  · rename_i hne
    cases hg : record_sale_go inv db items with
    | error e => rw [hg] at h; exact absurd h (by simp)
    | ok pr =>
      obtain ⟨db₂, ts⟩ := pr
      rw [hg] at h
      simp only [Except.ok.injEq, Prod.mk.injEq] at h
      obtain ⟨h1, h2⟩ := h
      subst h1
      obtain ⟨hg1, hg2, hg3, hg4, hg5⟩ := record_sale_go_ok inv items _ _ _ hg
      refine ⟨?_, hg1, hg2, hg3, hg4, ?_⟩
      · intro hnil
        rw [hnil] at hne
        exact hne rfl
      · rw [← h2, hg5]

/-- The stock-restoring fold of `undo_sale`, as a delta application. -/
theorem foldl_restore_eq_applyDeltas :
    ∀ (rows : List SaleLineRecord) (ps : List Product),
      rows.foldl
        (fun acc sale => updateById acc sale.productId
          (fun p => { p with quantity := p.quantity + sale.qty }))
        ps
        = applyDeltas (rows.map fun s => (s.productId, s.qty)) ps := by
  intro rows
  induction rows with
  | nil => intro ps; rfl
  | cons s rows ih =>
    intro ps
    rw [List.foldl_cons, List.map_cons]
    exact ih _

/-- What a successful `undo_sale` does to the database. -/
theorem undo_sale_ok {db db' : PharmacyDB} {inv : String}
    (h : undo_sale db inv = .ok db') :
    (db.sales.filter (fun s => s.invoice == inv)) ≠ [] ∧
    db'.products =
      applyDeltas
        ((db.sales.filter (fun s => s.invoice == inv)).map
          fun s => (s.productId, s.qty))
        db.products ∧
    db'.sales = db.sales.filter (fun s => !(s.invoice == inv)) ∧
    db'.stockAdjustments = db.stockAdjustments ∧
    db'.nextProductId = db.nextProductId := by
  rw [undo_sale] at h
  split at h
  · exact absurd h (by simp)
  · rename_i hne
    have h' := (Except.ok.injEq _ _).mp h
    subst h'
    refine ⟨fun hnil => hne (by rw [hnil]; rfl), ?_, rfl, rfl, rfl⟩
    exact foldl_restore_eq_applyDeltas _ _

/-! ### Failure analysis of `record_sale` (claim C2) -/

/-- Validation of one line item against a state: the line fails when its
quantity is non-positive, its rounded total is negative, its product is
unknown, or stock is insufficient.  These are exactly the checks of
`record_sale`'s loop body. -/
def lineFailsB (db : PharmacyDB) (it : SaleItem) : Bool :=
  decide (it.qty ≤ 0) || decide (lineTotal it < 0) ||
    (match get_product db it.productId with
     | none => true
     | some row => decide (row.quantity < it.qty))

/-- Some line of the batch fails validation, each line being checked against
the stock already decremented by the earlier lines of the same batch. -/
def someLineFails (db : PharmacyDB) : List SaleItem → Bool
  | [] => false
  | it :: rest =>
    lineFailsB db it || someLineFails (decrementStock db it) rest

/-- A sale line raises an error exactly when the validation predicate says
so. -/
theorem applySaleLine_error_iff (db : PharmacyDB) (inv : String)
    (it : SaleItem) :
    (∃ e, applySaleLine db inv it = .error e) ↔ lineFailsB db it = true := by
  unfold applySaleLine lineFailsB
  by_cases h1 : it.qty ≤ 0
  · simp [h1]
  · simp only [if_neg h1]
    by_cases h2 : lineTotal it < 0
    · simp [h1, h2]
    · simp only [if_neg h2]
      cases hg : get_product db it.productId with
      | none => simp [h1, h2]
      | some row =>
        by_cases h3 : it.qty > row.quantity
        · simp [h1, h2, h3]
        · simp [h1, h2, h3]

/-- Line validation reads only the products table. -/
theorem lineFailsB_products {db₁ db₂ : PharmacyDB}
    (h : db₁.products = db₂.products) (it : SaleItem) :
    lineFailsB db₁ it = lineFailsB db₂ it := by
  unfold lineFailsB get_product
  rw [h]

/-- Batch validation reads only the products table. -/
theorem someLineFails_products :
    ∀ (items : List SaleItem) (db₁ db₂ : PharmacyDB),
      db₁.products = db₂.products →
      someLineFails db₁ items = someLineFails db₂ items := by
  intro items
  induction items with
  | nil => intro _ _ _; rfl
  | cons it rest ih =>
    intro db₁ db₂ hp
    unfold someLineFails
    rw [lineFailsB_products hp,
      ih (decrementStock db₁ it) (decrementStock db₂ it)
        (by show updateById db₁.products _ _ = updateById db₂.products _ _
            rw [hp])]

/-- If some line of the batch fails, the whole loop raises an error. -/
theorem record_sale_go_error :
    ∀ (items : List SaleItem) (db : PharmacyDB) (inv : String),
      someLineFails db items = true →
      ∃ e, record_sale_go inv db items = .error e := by
  intro items
  induction items with
  | nil => intro db inv h; exact absurd h (by simp [someLineFails])
  | cons it rest ih =>
    intro db inv h
    simp only [someLineFails, Bool.or_eq_true] at h
    cases hx : applySaleLine db inv it with
    | error e => exact ⟨e, by simp [record_sale_go, hx]⟩
    | ok db₁ =>
      have hhead : ¬ lineFailsB db it = true := by
        intro hc
        obtain ⟨e, he⟩ := (applySaleLine_error_iff db inv it).mpr hc
        rw [he] at hx
        exact Except.noConfusion hx
      have htail : someLineFails (decrementStock db it) rest = true := by
        rcases h with h | h
        · exact absurd h hhead
        · exact h
      have hps : db₁.products = (decrementStock db it).products := by
        rw [(applySaleLine_ok hx).1, decrementStock_products]
      have htail' : someLineFails db₁ rest = true := by
        rw [someLineFails_products rest db₁ (decrementStock db it) hps]
        exact htail
      obtain ⟨e, he⟩ := ih db₁ inv htail'
      exact ⟨e, by simp [record_sale_go, hx, he]⟩

deriving instance DecidableEq for Except

/-- Did a ledger operation succeed? -/
def opOk {α : Type} : Except LedgerError α → Bool
  | .ok _ => true
  | .error _ => false

/-- Claim C2: `record_sale` is all-or-nothing.  If the batch is empty or any
line fails validation (non-positive qty, negative rounded total, unknown
product, or insufficient stock as seen after the decrements of the earlier
lines of the same batch), the call raises an error, and the caller's state
is unchanged: no quantity was modified and no sale row exists. -/
theorem record_sale_atomic_on_failure (db : PharmacyDB) (inv : String)
    (items : List SaleItem)
    (h : items = [] ∨ someLineFails db items = true) :
    opOk (record_sale db inv items) = false ∧
    runRecordSale db inv items = (db, none) := by
  have herr : ∃ e, record_sale db inv items = .error e := by
    rcases h with h | h
    · subst h; exact ⟨.invalidArgument, rfl⟩
    · cases items with
      | nil => exact ⟨.invalidArgument, rfl⟩
      | cons it rest =>
        obtain ⟨e, he⟩ := record_sale_go_error (it :: rest) db inv h
        refine ⟨e, ?_⟩
        rw [record_sale]
        simp only [List.isEmpty_cons, he]
        rfl
  obtain ⟨e, he⟩ := herr
  rw [he]
  exact ⟨rfl, by rw [runRecordSale, he]⟩

/-! ### Concrete states shared by the witnesses -/

/-- A sample product: id 1, quantity 5. -/
def exProduct : Product :=
  { id := 1, name := "Ibuprofen 200mg", categoryId := none, quantity := 5,
    price := 6, cost := 4, reorderLevel := 2, supplier := none,
    expiryDate := none }

/-- A sample database: one product (id 1, quantity 5), an adjustment ledger
matching its quantity, and no sales. -/
def exDb : PharmacyDB :=
  { products := [exProduct], sales := [],
    stockAdjustments := [⟨1, 5, "Initial Stock Entry"⟩], nextProductId := 2 }

theorem record_sale_atomic_on_failure_witness :
    opOk (record_sale exDb "INV-251012-001" [⟨1, 0, 6, 4, 0⟩]) = false ∧
    runRecordSale exDb "INV-251012-001" [⟨1, 0, 6, 4, 0⟩] = (exDb, none) :=
  record_sale_atomic_on_failure exDb "INV-251012-001" [⟨1, 0, 6, 4, 0⟩]
    (Or.inr (by decide))

/-! ### Claim C3: boundary behaviour of `adjust_stock` -/

/-- A product with quantity 0 (reachable: `add_product` accepts quantity 0). -/
def exProduct0 : Product :=
  { id := 1, name := "Aspirin 325mg", categoryId := none, quantity := 0,
    price := 3, cost := 2, reorderLevel := 1, supplier := none,
    expiryDate := none }

/-- A database whose only product has quantity 0. -/
def exDb0 : PharmacyDB :=
  { products := [exProduct0], sales := [], stockAdjustments := [],
    nextProductId := 2 }

/-- Counterexample to claim C3 as stated.  Two concrete refutations:
(a) for the existing product 1 of `exDb0` with quantity `Q = 0` and the
non-empty reason `"test"`, `Adjust(-Q) = Adjust(0)` does **not** succeed —
`adjust_stock` rejects a zero delta first with `InvalidArgument`; and
(b) for product 1 of `exDb` with quantity `Q = 5` and the non-empty
(whitespace) reason `" "`, `Adjust(-Q-1) = Adjust(-6)` fails with
`InvalidArgument` (blank reason), not with `InsufficientStock`. -/
theorem adjust_stock_boundary_claim_false :
    (productQty exDb0 1 = some 0 ∧
      adjust_stock exDb0 1 0 "test" = .error .invalidArgument) ∧
    (productQty exDb 1 = some 5 ∧
      adjust_stock exDb 1 (-6) " " = .error .invalidArgument ∧
      LedgerError.invalidArgument ≠ LedgerError.insufficientStock) := by
  decide

/-- Claim C3 (amended): for every existing product with quantity `Q ≥ 0`
and every reason with non-whitespace content, `Adjust(-Q-1)` fails with
`InsufficientStock` and changes nothing; and, provided additionally
`Q ≥ 1` (so that the delta is non-zero), `Adjust(-Q)` succeeds, sets the
quantity to exactly 0, appends exactly one `AdjustmentRecord` with delta
`-Q`, and touches no sale row. -/
theorem adjust_stock_boundary (db : PharmacyDB) (pid : Nat) (p : Product)
    (reason : String)
    (hp : get_product db pid = some p) (hq : 0 ≤ p.quantity)
    (hr : ¬ stripStr reason = "") :
    (adjust_stock db pid (-p.quantity - 1) reason
        = .error .insufficientStock ∧
      runAdjust db pid (-p.quantity - 1) reason = db) ∧
    (0 < p.quantity →
      opOk (adjust_stock db pid (-p.quantity) reason) = true ∧
      productQty (runAdjust db pid (-p.quantity) reason) pid = some 0 ∧
      (runAdjust db pid (-p.quantity) reason).stockAdjustments
        = db.stockAdjustments ++ [⟨pid, -p.quantity, stripStr reason⟩] ∧
      (runAdjust db pid (-p.quantity) reason).sales = db.sales) := by
  have hp' : db.products.find? (fun q => q.id == pid) = some p := hp
  have hpid : (p.id == pid) = true := by
    have h0 := List.find?_some hp'
    simpa using h0
  have hA : adjust_stock db pid (-p.quantity - 1) reason
      = .error .insufficientStock := by
    unfold adjust_stock
    rw [if_neg (show ¬(-p.quantity - 1 = 0) by omega), if_neg hr]
    simp only [hp]
    rw [if_pos (show p.quantity + (-p.quantity - 1) < 0 by omega)]
  refine ⟨⟨hA, by rw [runAdjust, hA]⟩, fun hpos => ?_⟩
  have hB : adjust_stock db pid (-p.quantity) reason
      = .ok { db with
              products := updateById db.products pid
                (fun q => { q with quantity := p.quantity + -p.quantity })
              stockAdjustments :=
                db.stockAdjustments ++ [⟨pid, -p.quantity, stripStr reason⟩] } := by
    unfold adjust_stock
    rw [if_neg (show ¬(-p.quantity = 0) by omega), if_neg hr]
    simp only [hp]
    rw [if_neg (show ¬(p.quantity + -p.quantity < 0) by omega)]
  refine ⟨by rw [hB]; rfl, ?_, by rw [runAdjust, hB], by rw [runAdjust, hB]⟩
  rw [runAdjust, hB]
  show productQty
    { db with
      products := updateById db.products pid
        (fun q => { q with quantity := p.quantity + -p.quantity })
      stockAdjustments :=
        db.stockAdjustments ++ [⟨pid, -p.quantity, stripStr reason⟩] } pid
    = some 0
  unfold productQty get_product
  show ((updateById db.products pid _).find? _).map _ = _
  rw [get_product_updateById db.products pid pid
    (fun q => { q with quantity := p.quantity + -p.quantity }) (fun q => rfl)]
  rw [hp', Option.map_some', Option.map_some', if_pos hpid]
  show some (p.quantity + -p.quantity) = some 0
  rw [Option.some.injEq]
  omega

theorem adjust_stock_boundary_witness :
    (adjust_stock exDb 1 (-5 - 1) "shrinkage" = .error .insufficientStock ∧
      runAdjust exDb 1 (-5 - 1) "shrinkage" = exDb) ∧
    (0 < (5 : ℤ) →
      opOk (adjust_stock exDb 1 (-5) "shrinkage") = true ∧
      productQty (runAdjust exDb 1 (-5) "shrinkage") 1 = some 0 ∧
      (runAdjust exDb 1 (-5) "shrinkage").stockAdjustments
        = exDb.stockAdjustments ++ [⟨1, -5, stripStr "shrinkage"⟩] ∧
      (runAdjust exDb 1 (-5) "shrinkage").sales = exDb.sales) :=
  adjust_stock_boundary exDb 1 exProduct "shrinkage" (by decide) (by decide)
    (by decide)

/-! ### Claim C8: the deletion guard of `delete_product` -/

/-- A sale row for product 1 under invoice `INV-251012-001`. -/
def exSaleRow : SaleLineRecord :=
  { invoice := "INV-251012-001", productId := 1, qty := 2, unitPrice := 6,
    unitCost := 4, discount := 0, total := 12 }

/-- A database where product 1 (quantity 3) has one sale row and one
adjustment row. -/
def exDbSale : PharmacyDB :=
  { products := [{ exProduct with quantity := 3 }], sales := [exSaleRow],
    stockAdjustments := [⟨1, 5, "Initial Stock Entry"⟩], nextProductId := 2 }

/-- Claim C8: `delete_product` fails with `Conflict` and changes nothing
whenever at least one sale row references the product; with no referencing
sale row (even if adjustment rows exist) it deletes the product together
with all of its adjustment rows in one step, touching nothing else. -/
theorem delete_product_guard (db : PharmacyDB) (pid : Nat) (p : Product)
    (hp : get_product db pid = some p) :
    (db.sales.any (fun s => s.productId == pid) = true →
      delete_product db pid = .error .conflict ∧ runDelete db pid = db) ∧
    (db.sales.any (fun s => s.productId == pid) = false →
      delete_product db pid =
        .ok { db with
              products := db.products.filter (fun q => !(q.id == pid))
              stockAdjustments :=
                db.stockAdjustments.filter
                  (fun a => !(a.productId == pid)) }) := by
  constructor
  · intro hs
    have hD : delete_product db pid = .error .conflict := by
      unfold delete_product
      rw [if_pos hs]
    exact ⟨hD, by rw [runDelete, hD]⟩
  · intro hs
    have hp' : db.products.find? (fun q => q.id == pid) = some p := hp
    have hpid : (p.id == pid) = true := by
      have h0 := List.find?_some hp'
      simpa using h0
    have hex : db.products.any (fun q => q.id == pid) = true :=
      List.any_eq_true.mpr
        ⟨p, List.mem_of_find?_eq_some hp', hpid⟩
    unfold delete_product
    rw [if_neg (by rw [hs]; exact Bool.false_ne_true), if_pos hex]

theorem delete_product_guard_witness :
    (exDbSale.sales.any (fun s => s.productId == 1) = true →
      delete_product exDbSale 1 = .error .conflict ∧
      runDelete exDbSale 1 = exDbSale) ∧
    (exDbSale.sales.any (fun s => s.productId == 1) = false →
      delete_product exDbSale 1 =
        .ok { exDbSale with
              products := exDbSale.products.filter (fun q => !(q.id == 1))
              stockAdjustments :=
                exDbSale.stockAdjustments.filter
                  (fun a => !(a.productId == 1)) }) :=
  delete_product_guard exDbSale 1 { exProduct with quantity := 3 } (by decide)

/-- The cascade branch, evaluated on `exDb` (no sale rows, one adjustment
row): the deletion succeeds and removes the adjustment rows with the
product. -/
theorem delete_product_cascade_example :
    delete_product exDb 1 =
      .ok { exDb with
            products := []
            stockAdjustments := [] } := by
  decide

/-! ### Claim C9: undoing a sale whose product was deleted -/

/-- A database holding a sale row for invoice `INV-251012-001` whose
product (id 7) is absent from the catalog. -/
def exDbOrphan : PharmacyDB :=
  { products := [],
    sales := [{ invoice := "INV-251012-001", productId := 7, qty := 2,
                unitPrice := 6, unitCost := 4, discount := 0, total := 12 }],
    stockAdjustments := [], nextProductId := 8 }

/-- Counterexample to claim C9 as stated: on `exDbOrphan`, whose only sale
row references the absent product 7, `undo_sale` does not fail with any
error — it succeeds (and silently skips the quantity restoration). -/
theorem undo_missing_product_claim_false :
    get_product exDbOrphan 7 = none ∧
    opOk (undo_sale exDbOrphan "INV-251012-001") = true := by
  decide

/-- Every member of a filtered list is a member of the list. -/
theorem mem_of_mem_filter' {α : Type} {q : α → Bool} {a : α} :
    ∀ {l : List α}, a ∈ l.filter q → a ∈ l :=
  fun h => List.mem_of_mem_filter h

/-- A map that fixes every member of a list is the identity on it. -/
theorem map_eq_self_of_mem {α : Type} (f : α → α) :
    ∀ l : List α, (∀ a ∈ l, f a = a) → l.map f = l := by
  intro l
  induction l with
  | nil => intro _; rfl
  | cons a l ih =>
    intro h
    rw [List.map_cons, h a (by simp), ih (fun b hb => h b (by simp [hb]))]

/-- Applying deltas whose ids hit no product is a no-op. -/
theorem applyDeltas_eq_self (ds : List (Nat × ℤ)) (ps : List Product)
    (hno : ∀ cd ∈ ds, ∀ q ∈ ps, q.id ≠ cd.1) : applyDeltas ds ps = ps := by
  rw [applyDeltas_eq_map]
  apply map_eq_self_of_mem
  intro p hp
  have hz : deltaSum ds p.id = 0 := by
    unfold deltaSum
    apply List.sum_eq_zero
    intro x hx
    obtain ⟨cd, hcd, rfl⟩ := List.mem_map.mp hx
    rw [if_neg (fun hc => hno cd hcd p hp hc.symm)]
  rw [hz, add_zero, product_eta]

/-- Claim C9 (amended): `undo_sale` on an invoice all of whose rows
reference products absent from the catalog does **not** fail with a
dedicated error — it succeeds, silently restores nothing (the products
table is unchanged), and removes the invoice's sale rows. -/
theorem undo_missing_product (db : PharmacyDB) (inv : String)
    (hne : db.sales.filter (fun s => s.invoice == inv) ≠ [])
    (habs : ∀ s ∈ db.sales.filter (fun s => s.invoice == inv),
      get_product db s.productId = none) :
    opOk (undo_sale db inv) = true ∧
    (runUndo db inv).products = db.products ∧
    (runUndo db inv).sales
      = db.sales.filter (fun s => !(s.invoice == inv)) := by
  have hU : undo_sale db inv =
      .ok { db with
            products :=
              (db.sales.filter (fun s => s.invoice == inv)).foldl
                (fun acc sale => updateById acc sale.productId
                  (fun p => { p with quantity := p.quantity + sale.qty }))
                db.products
            sales := db.sales.filter (fun s => !(s.invoice == inv)) } := by
    unfold undo_sale
    rw [if_neg (by simpa using hne)]
  have hProd :
      (db.sales.filter (fun s => s.invoice == inv)).foldl
        (fun acc sale => updateById acc sale.productId
          (fun p => { p with quantity := p.quantity + sale.qty }))
        db.products = db.products := by
    rw [foldl_restore_eq_applyDeltas]
    apply applyDeltas_eq_self
    intro cd hcd q hq
    obtain ⟨s, hs, rfl⟩ := List.mem_map.mp hcd
    intro hid
    have hfind : db.products.find? (fun r => r.id == s.productId) = none :=
      habs s hs
    have := List.find?_eq_none.mp hfind q hq
    exact this (by simp [hid])
  refine ⟨by rw [hU]; rfl, ?_, by rw [runUndo, hU]⟩
  rw [runUndo, hU]
  exact hProd

theorem undo_missing_product_witness :
    opOk (undo_sale exDbOrphan "INV-251012-001") = true ∧
    (runUndo exDbOrphan "INV-251012-001").products = exDbOrphan.products ∧
    (runUndo exDbOrphan "INV-251012-001").sales
      = exDbOrphan.sales.filter (fun s => !(s.invoice == "INV-251012-001")) :=
  undo_missing_product exDbOrphan "INV-251012-001" (by decide) (by decide)

/-! ### Claim C7: sequential dependent validation inside one batch -/

theorem pyRound2_zero : pyRound2 0 = 0 := by
  norm_num [pyRound2, pyRoundInt, ratFloor]

/-- A line with per-unit discount 0, non-negative quantity and non-negative
unit price has a non-negative rounded total. -/
theorem lineTotal_nonneg (pid : Nat) (q : ℤ) (u c : ℚ) (hq : 0 ≤ q)
    (hu : 0 ≤ u) : 0 ≤ lineTotal ⟨pid, q, u, c, 0⟩ := by
  unfold lineTotal
  rw [pyRound2_zero, sub_zero]
  exact pyRound2_nonneg (mul_nonneg (by exact_mod_cast hq) hu)

/-- The successful branch of one sale line. -/
theorem applySaleLine_ok_of (db : PharmacyDB) (inv : String) (it : SaleItem)
    (row : Product)
    (h1 : ¬ it.qty ≤ 0) (h2 : ¬ lineTotal it < 0)
    (h3 : get_product db it.productId = some row)
    (h4 : ¬ it.qty > row.quantity) :
    applySaleLine db inv it =
      .ok { decrementStock db it with
            sales := db.sales ++ [saleRow inv it] } := by
  unfold applySaleLine
  rw [if_neg h1, if_neg h2]
  simp only [h3]
  rw [if_neg h4]

/-- The insufficient-stock branch of one sale line. -/
theorem applySaleLine_insufficient (db : PharmacyDB) (inv : String)
    (it : SaleItem) (row : Product)
    (h1 : ¬ it.qty ≤ 0) (h2 : ¬ lineTotal it < 0)
    (h3 : get_product db it.productId = some row)
    (h4 : it.qty > row.quantity) :
    applySaleLine db inv it = .error .insufficientStock := by
  unfold applySaleLine
  rw [if_neg h1, if_neg h2]
  simp only [h3]
  rw [if_pos h4]

/-- `get_product` only reads the products table. -/
theorem get_product_products {db₁ db₂ : PharmacyDB}
    (h : db₁.products = db₂.products) (pid : Nat) :
    get_product db₁ pid = get_product db₂ pid := by
  unfold get_product
  rw [h]

/-- The product a sale line referenced, looked up again after the line was
applied: its quantity has been decremented by the line's qty. -/
theorem get_product_after_line (db : PharmacyDB) (inv : String)
    (it : SaleItem) (p : Product)
    (hp : get_product db it.productId = some p)
    (hpid : (p.id == it.productId) = true) :
    get_product
      { decrementStock db it with sales := db.sales ++ [saleRow inv it] }
      it.productId = some { p with quantity := p.quantity - it.qty } := by
  show (updateById db.products it.productId _).find? _ = _
  rw [get_product_updateById db.products it.productId it.productId
    (fun q => { q with quantity := q.quantity - it.qty }) (fun q => rfl)]
  have hp' : db.products.find? (fun q => q.id == it.productId) = some p := hp
  rw [hp', Option.map_some', if_pos hpid]

/-- Claim C7: inside one batch, each later line is validated against the
stock already decremented by the earlier lines.  For a product with
quantity 5 (sold at a non-negative unit price with no discount), a batch of
two lines of qty 3 each fails with `InsufficientStock` (the second check
sees 2 available) and leaves the state unchanged, while a batch of qty 3
then qty 2 succeeds and leaves the quantity at exactly 0. -/
theorem record_sale_sequential_validation (db : PharmacyDB) (inv : String)
    (pid : Nat) (p : Product) (u c : ℚ)
    (hp : get_product db pid = some p) (hq : p.quantity = 5) (hu : 0 ≤ u) :
    (record_sale db inv [⟨pid, 3, u, c, 0⟩, ⟨pid, 3, u, c, 0⟩]
        = .error .insufficientStock ∧
      runRecordSale db inv [⟨pid, 3, u, c, 0⟩, ⟨pid, 3, u, c, 0⟩]
        = (db, none)) ∧
    (opOk (record_sale db inv [⟨pid, 3, u, c, 0⟩, ⟨pid, 2, u, c, 0⟩]) = true ∧
      productQty
        (runRecordSale db inv [⟨pid, 3, u, c, 0⟩, ⟨pid, 2, u, c, 0⟩]).1 pid
        = some 0) := by
  have hp' : db.products.find? (fun q => q.id == pid) = some p := hp
  have hpid : (p.id == pid) = true := by
    have h0 := List.find?_some hp'
    simpa using h0
  have hn3 : ¬ lineTotal (⟨pid, 3, u, c, 0⟩ : SaleItem) < 0 :=
    not_lt.mpr (lineTotal_nonneg pid 3 u c (by omega) hu)
  have hn2 : ¬ lineTotal (⟨pid, 2, u, c, 0⟩ : SaleItem) < 0 :=
    not_lt.mpr (lineTotal_nonneg pid 2 u c (by omega) hu)
  have e1 : applySaleLine db inv ⟨pid, 3, u, c, 0⟩ =
      .ok { decrementStock db ⟨pid, 3, u, c, 0⟩ with
            sales := db.sales ++ [saleRow inv ⟨pid, 3, u, c, 0⟩] } :=
    applySaleLine_ok_of db inv ⟨pid, 3, u, c, 0⟩ p
      (by show ¬ (3 : ℤ) ≤ 0; omega) hn3 hp
      (by show ¬ (3 : ℤ) > p.quantity; omega)
  have hg1 : get_product
      { decrementStock db ⟨pid, 3, u, c, 0⟩ with
        sales := db.sales ++ [saleRow inv ⟨pid, 3, u, c, 0⟩] } pid
      = some { p with quantity := p.quantity - 3 } :=
    get_product_after_line db inv ⟨pid, 3, u, c, 0⟩ p hp hpid
  constructor
  · have e2 : applySaleLine
        { decrementStock db ⟨pid, 3, u, c, 0⟩ with
          sales := db.sales ++ [saleRow inv ⟨pid, 3, u, c, 0⟩] }
        inv ⟨pid, 3, u, c, 0⟩ = .error .insufficientStock :=
      applySaleLine_insufficient _ inv ⟨pid, 3, u, c, 0⟩
        { p with quantity := p.quantity - 3 }
        (by show ¬ (3 : ℤ) ≤ 0; omega) hn3 hg1
        (by show (3 : ℤ) > p.quantity - 3; omega)
    have hfail : record_sale db inv [⟨pid, 3, u, c, 0⟩, ⟨pid, 3, u, c, 0⟩]
        = .error .insufficientStock := by
      rw [record_sale, if_neg (by simp)]
      simp only [record_sale_go, e1, e2]
    exact ⟨hfail, by rw [runRecordSale, hfail]⟩
  · have e3 : applySaleLine
        { decrementStock db ⟨pid, 3, u, c, 0⟩ with
          sales := db.sales ++ [saleRow inv ⟨pid, 3, u, c, 0⟩] }
        inv ⟨pid, 2, u, c, 0⟩ =
        .ok { decrementStock
                { decrementStock db ⟨pid, 3, u, c, 0⟩ with
                  sales := db.sales ++ [saleRow inv ⟨pid, 3, u, c, 0⟩] }
                ⟨pid, 2, u, c, 0⟩ with
              sales := (db.sales ++ [saleRow inv ⟨pid, 3, u, c, 0⟩]) ++
                [saleRow inv ⟨pid, 2, u, c, 0⟩] } :=
      applySaleLine_ok_of _ inv ⟨pid, 2, u, c, 0⟩
        { p with quantity := p.quantity - 3 }
        (by show ¬ (2 : ℤ) ≤ 0; omega) hn2 hg1
        (by show ¬ (2 : ℤ) > p.quantity - 3; omega)
    have hok : record_sale db inv [⟨pid, 3, u, c, 0⟩, ⟨pid, 2, u, c, 0⟩]
        = .ok
          ({ decrementStock
               { decrementStock db ⟨pid, 3, u, c, 0⟩ with
                 sales := db.sales ++ [saleRow inv ⟨pid, 3, u, c, 0⟩] }
               ⟨pid, 2, u, c, 0⟩ with
             sales := (db.sales ++ [saleRow inv ⟨pid, 3, u, c, 0⟩]) ++
               [saleRow inv ⟨pid, 2, u, c, 0⟩] },
           (lineTotal (⟨pid, 3, u, c, 0⟩ : SaleItem)
             :: lineTotal (⟨pid, 2, u, c, 0⟩ : SaleItem) :: []).sum) := by
      rw [record_sale, if_neg (by simp)]
      simp only [record_sale_go, e1, e3]
    refine ⟨by rw [hok]; rfl, ?_⟩
    have hg2 : get_product
        { decrementStock
            { decrementStock db ⟨pid, 3, u, c, 0⟩ with
              sales := db.sales ++ [saleRow inv ⟨pid, 3, u, c, 0⟩] }
            ⟨pid, 2, u, c, 0⟩ with
          sales := (db.sales ++ [saleRow inv ⟨pid, 3, u, c, 0⟩]) ++
            [saleRow inv ⟨pid, 2, u, c, 0⟩] } pid
        = some { p with quantity := p.quantity - 3 - 2 } := by
      have := get_product_after_line
        { decrementStock db ⟨pid, 3, u, c, 0⟩ with
          sales := db.sales ++ [saleRow inv ⟨pid, 3, u, c, 0⟩] }
        inv ⟨pid, 2, u, c, 0⟩ { p with quantity := p.quantity - 3 } hg1 hpid
      exact this
    rw [runRecordSale, hok]
    show productQty _ pid = some 0
    unfold productQty
    rw [hg2, Option.map_some', Option.some.injEq]
    show p.quantity - 3 - 2 = 0
    omega

theorem record_sale_sequential_validation_witness :
    (record_sale exDb "INV-251012-001" [⟨1, 3, 6, 4, 0⟩, ⟨1, 3, 6, 4, 0⟩]
        = .error .insufficientStock ∧
      runRecordSale exDb "INV-251012-001" [⟨1, 3, 6, 4, 0⟩, ⟨1, 3, 6, 4, 0⟩]
        = (exDb, none)) ∧
    (opOk (record_sale exDb "INV-251012-001"
        [⟨1, 3, 6, 4, 0⟩, ⟨1, 2, 6, 4, 0⟩]) = true ∧
      productQty
        (runRecordSale exDb "INV-251012-001"
          [⟨1, 3, 6, 4, 0⟩, ⟨1, 2, 6, 4, 0⟩]).1 1
        = some 0) :=
  record_sale_sequential_validation exDb "INV-251012-001" 1 exProduct 6 4
    (by decide) (by decide) (by norm_num)

/-! ### Claim C4: the undo round-trip -/

/-- A one-line `record_sale`, fully evaluated. -/
theorem record_sale_single (db : PharmacyDB) (inv : String) (it : SaleItem)
    (row : Product)
    (h1 : ¬ it.qty ≤ 0) (h2 : ¬ lineTotal it < 0)
    (h3 : get_product db it.productId = some row)
    (h4 : ¬ it.qty > row.quantity) :
    record_sale db inv [it] =
      .ok ({ decrementStock db it with
             sales := db.sales ++ [saleRow inv it] },
           ([lineTotal it]).sum) := by
  rw [record_sale, if_neg (by simp)]
  simp only [record_sale_go, applySaleLine_ok_of db inv it row h1 h2 h3 h4]

/-- `applyDeltas` over an appended list applies the two parts in order. -/
theorem applyDeltas_append (ds₁ ds₂ : List (Nat × ℤ)) (ps : List Product) :
    applyDeltas (ds₁ ++ ds₂) ps = applyDeltas ds₂ (applyDeltas ds₁ ps) := by
  unfold applyDeltas
  rw [List.foldl_append]

theorem deltaSum_cons (x : Nat × ℤ) (ds : List (Nat × ℤ)) (a : Nat) :
    deltaSum (x :: ds) a = (if x.1 = a then x.2 else 0) + deltaSum ds a := by
  simp [deltaSum]

/-- The decrements of a batch and the increments restored from its sale
rows cancel, id by id. -/
theorem deltaSum_neg_cancel (items : List SaleItem) (a : Nat) :
    deltaSum (items.map fun it => (it.productId, -it.qty)) a
      + deltaSum (items.map fun it => (it.productId, it.qty)) a = 0 := by
  induction items with
  | nil => simp [deltaSum]
  | cons it rest ih =>
    simp only [List.map_cons, deltaSum_cons]
    by_cases h : it.productId = a
    · simp only [if_pos h]
      omega
    · simp only [if_neg h]
      omega

/-- A database with a pre-existing sale row under invoice `INV-X` for
product 1, whose quantity is 10. -/
def exDbDup : PharmacyDB :=
  { products := [{ exProduct with quantity := 10 }],
    sales := [{ invoice := "INV-X", productId := 1, qty := 2, unitPrice := 6,
                unitCost := 4, discount := 0, total := 12 }],
    stockAdjustments := [⟨1, 12, "Initial Stock Entry"⟩],
    nextProductId := 2 }

/-- Counterexample to claim C4 as stated.  `exDbDup` already holds a sale
row under invoice `INV-X` (nothing prevents this: `record_sale` never
checks invoice uniqueness, and the schema has no UNIQUE constraint).  A
sale of qty 3 under the same invoice commits successfully from quantity 10,
but the subsequent `UndoSale("INV-X")` deletes and credits *both* rows,
leaving product 1 at quantity 12, not at 10 as the claim demands. -/
theorem undo_roundtrip_claim_false :
    productQty exDbDup 1 = some 10 ∧
    opOk (record_sale exDbDup "INV-X" [⟨1, 3, 6, 4, 0⟩]) = true ∧
    productQty
      (runUndo (runRecordSale exDbDup "INV-X" [⟨1, 3, 6, 4, 0⟩]).1 "INV-X") 1
      = some 12 ∧
    some (12 : ℤ) ≠ some 10 := by
  have hn : ¬ lineTotal (⟨1, 3, 6, 4, 0⟩ : SaleItem) < 0 :=
    not_lt.mpr (lineTotal_nonneg 1 3 6 4 (by omega) (by norm_num))
  have hrs := record_sale_single exDbDup "INV-X" ⟨1, 3, 6, 4, 0⟩
    { exProduct with quantity := 10 }
    (by show ¬ (3 : ℤ) ≤ 0; omega) hn (by decide)
    (by show ¬ (3 : ℤ) > (10 : ℤ); omega)
  refine ⟨by decide, by rw [hrs]; rfl, ?_, by decide⟩
  rw [runRecordSale, hrs]
  decide

/-- `undo_sale` fails with `NotFound` when no sale row carries the
invoice. -/
theorem undo_sale_notFound (db : PharmacyDB) (inv : String)
    (h : db.sales.filter (fun s => s.invoice == inv) = []) :
    undo_sale db inv = .error .notFound := by
  unfold undo_sale
  rw [if_pos (by simp [h])]

/-- Claim C4 (amended): provided no sale row under the invoice already
exists, a successful `record_sale` followed by `undo_sale` on that invoice
restores the whole products table (every referenced product's quantity
included) to its pre-sale state and removes every sale row of the invoice;
a second `undo_sale` on the same invoice fails with `NotFound` and leaves
the state unchanged, so no quantity is ever credited twice. -/
theorem undo_roundtrip (db db₁ : PharmacyDB) (inv : String)
    (items : List SaleItem) (r : ℚ)
    (hfresh : ∀ s ∈ db.sales, s.invoice ≠ inv)
    (hc : record_sale db inv items = .ok (db₁, r)) :
    opOk (undo_sale db₁ inv) = true ∧
    (runUndo db₁ inv).products = db.products ∧
    (runUndo db₁ inv).sales = db.sales ∧
    (runUndo db₁ inv).stockAdjustments = db.stockAdjustments ∧
    undo_sale (runUndo db₁ inv) inv = .error .notFound ∧
    runUndo (runUndo db₁ inv) inv = runUndo db₁ inv := by
  obtain ⟨hne, hP, hS, hA, hN, hr⟩ := record_sale_ok hc
  have hOld : db.sales.filter (fun s => s.invoice == inv) = [] :=
    List.filter_eq_nil_iff.mpr (fun s hs => by simp [hfresh s hs])
  have hNewKeep :
      (items.map (saleRow inv)).filter (fun s => s.invoice == inv)
        = items.map (saleRow inv) :=
    List.filter_eq_self.mpr (fun s hs => by
      obtain ⟨it, _, rfl⟩ := List.mem_map.mp hs
      simp [saleRow])
  have hR : db₁.sales.filter (fun s => s.invoice == inv)
      = items.map (saleRow inv) := by
    rw [hS, List.filter_append, hOld, hNewKeep, List.nil_append]
  have hKeep : db₁.sales.filter (fun s => !(s.invoice == inv)) = db.sales := by
    rw [hS, List.filter_append]
    have h1 : db.sales.filter (fun s => !(s.invoice == inv)) = db.sales :=
      List.filter_eq_self.mpr (fun s hs => by simp [hfresh s hs])
    have h2 : (items.map (saleRow inv)).filter
        (fun s => !(s.invoice == inv)) = [] :=
      List.filter_eq_nil_iff.mpr (fun s hs => by
        obtain ⟨it, _, rfl⟩ := List.mem_map.mp hs
        simp [saleRow])
    rw [h1, h2, List.append_nil]
  have hRne : db₁.sales.filter (fun s => s.invoice == inv) ≠ [] := by
    rw [hR]
    cases items with
    | nil => exact absurd rfl hne
    | cons a l => simp
  have hU : undo_sale db₁ inv = .ok
      { db₁ with
        products := (db₁.sales.filter (fun s => s.invoice == inv)).foldl
          (fun acc sale => updateById acc sale.productId
            (fun p => { p with quantity := p.quantity + sale.qty }))
          db₁.products
        sales := db₁.sales.filter (fun s => !(s.invoice == inv)) } := by
    unfold undo_sale
    rw [if_neg (by simpa using hRne)]
  have hProd : (runUndo db₁ inv).products = db.products := by
    rw [runUndo, hU]
    show (db₁.sales.filter _).foldl _ db₁.products = db.products
    rw [foldl_restore_eq_applyDeltas, hR, hP]
    rw [← applyDeltas_append]
    have hpairs : (items.map (saleRow inv)).map (fun s => (s.productId, s.qty))
        = items.map (fun it => (it.productId, it.qty)) := by
      rw [List.map_map]
      rfl
    rw [hpairs, applyDeltas_eq_map]
    apply map_eq_self_of_mem
    intro p hp
    have hz : deltaSum
        ((items.map fun it => (it.productId, -it.qty)) ++
          items.map (fun it => (it.productId, it.qty))) p.id = 0 := by
      show (List.map _ _).sum = 0
      rw [List.map_append, List.sum_append]
      exact deltaSum_neg_cancel items p.id
    rw [hz, add_zero, product_eta]
  have hsecond : undo_sale (runUndo db₁ inv) inv = .error .notFound := by
    apply undo_sale_notFound
    rw [runUndo, hU]
    show (db₁.sales.filter _).filter _ = []
    rw [hKeep]
    exact hOld
  refine ⟨by rw [hU]; rfl, hProd, ?_, ?_, hsecond, ?_⟩
  · rw [runUndo, hU]
    exact hKeep
  · rw [runUndo, hU]
    exact hA
  · conv_lhs => rw [runUndo]
    rw [hsecond]

/-- The state after selling qty 2 of product 1 from `exDb` under the fresh
invoice `INV-X`. -/
def exDbAfterSale : PharmacyDB :=
  { decrementStock exDb ⟨1, 2, 6, 4, 0⟩ with
    sales := exDb.sales ++ [saleRow "INV-X" ⟨1, 2, 6, 4, 0⟩] }

theorem undo_roundtrip_witness :
    opOk (undo_sale exDbAfterSale "INV-X") = true ∧
    (runUndo exDbAfterSale "INV-X").products = exDb.products ∧
    (runUndo exDbAfterSale "INV-X").sales = exDb.sales ∧
    (runUndo exDbAfterSale "INV-X").stockAdjustments
      = exDb.stockAdjustments ∧
    undo_sale (runUndo exDbAfterSale "INV-X") "INV-X" = .error .notFound ∧
    runUndo (runUndo exDbAfterSale "INV-X") "INV-X"
      = runUndo exDbAfterSale "INV-X" :=
  undo_roundtrip exDb exDbAfterSale "INV-X" [⟨1, 2, 6, 4, 0⟩]
    ([lineTotal ⟨1, 2, 6, 4, 0⟩]).sum (by decide)
    (record_sale_single exDb "INV-X" ⟨1, 2, 6, 4, 0⟩ exProduct
      (by show ¬ (2 : ℤ) ≤ 0; omega)
      (not_lt.mpr (lineTotal_nonneg 1 2 6 4 (by omega) (by norm_num)))
      (by decide)
      (by show ¬ (2 : ℤ) > (5 : ℤ); omega))

/-! ### Claim C5: the rounding policy of `record_sale`

The spec's concrete example expects `round(3×5.995, 2) = 17.99`.  The code
produces 17.98, for two independent reasons, either of which suffices:
Python's `round` is round-half-to-even (`round(17.985, 2) = 17.98`, since
1798 is even), and in the source's binary64 arithmetic `3 * 5.995` is
`17.984999999999999431...`, strictly below the tie, so it rounds down under
any tie-breaking rule.  The lemmas on `double5995` below document the
binary64 side; the model itself computes exactly and rounds half-to-even. -/

/-- The binary64 (IEEE-754 double) value nearest to 5.995: it lies above
5.995, within half an ulp (the ulp at 5.995 is `2 ^ (-50)`). -/
def double5995 : ℚ := 6749769941521531 / 2 ^ 50

theorem double5995_closest :
    5.995 < double5995 ∧ double5995 - 5.995 < 1 / 2 ^ 51 := by
  constructor <;> norm_num [double5995]

/-- The binary64 result of `3 * double5995` (the ulp at 17.98… is
`2 ^ (-48)`). -/
def double3x5995 : ℚ := 5062327456141148 / 2 ^ 48

/-- `3 * 5.995` evaluated in binary64 lands strictly below 17.985, and its
correct 2-decimal rounding is 17.98 — matching the model's half-even
rounding of the exact value 17.985. -/
theorem double3x5995_rounds :
    0 ≤ 3 * double5995 - double3x5995 ∧
    3 * double5995 - double3x5995 < 1 / 2 ^ 49 ∧
    double3x5995 < 17.985 ∧
    pyRound2 double3x5995 = 1798 / 100 := by
  refine ⟨by norm_num [double5995, double3x5995],
    by norm_num [double5995, double3x5995],
    by norm_num [double3x5995], ?_⟩
  norm_num [double3x5995, pyRound2, pyRoundInt, ratFloor]

/-- The line `{qty := 3, unitPrice := 5.995, discount := 0}` stores total
17.98 in the model (half-even rounding of the exact 17.985). -/
theorem lineTotal_5995 :
    lineTotal ⟨1, 3, 5.995, 0, 0⟩ = 1798 / 100 := by
  unfold lineTotal
  rw [pyRound2_zero, sub_zero]
  norm_num [pyRound2, pyRoundInt, ratFloor]

/-- Counterexample to claim C5 as stated: committing the line
`{qty: 3, unitPrice: 5.995, discount: 0}` on `exDb` succeeds and stores the
line total 17.98 — not 17.99 as the claim requires. -/
theorem rounding_claim_false :
    opOk (record_sale exDb "INV-X" [⟨1, 3, 5.995, 0, 0⟩]) = true ∧
    ((runRecordSale exDb "INV-X" [⟨1, 3, 5.995, 0, 0⟩]).1.sales.map
      (·.total)) = [1798 / 100] ∧
    (runRecordSale exDb "INV-X" [⟨1, 3, 5.995, 0, 0⟩]).2
      = some (1798 / 100) ∧
    (1798 / 100 : ℚ) ≠ 1799 / 100 := by
  have hn : ¬ lineTotal (⟨1, 3, 5.995, 0, 0⟩ : SaleItem) < 0 := by
    rw [lineTotal_5995]
    norm_num
  have hrs := record_sale_single exDb "INV-X" ⟨1, 3, 5.995, 0, 0⟩ exProduct
    (by show ¬ (3 : ℤ) ≤ 0; omega) hn (by decide)
    (by show ¬ (3 : ℤ) > (5 : ℤ); omega)
  refine ⟨by rw [hrs]; rfl, ?_, ?_, by norm_num⟩
  · rw [runRecordSale, hrs]
    show (exDb.sales ++ [saleRow "INV-X" _]).map (·.total) = [1798 / 100]
    show [lineTotal (⟨1, 3, 5.995, 0, 0⟩ : SaleItem)] = [1798 / 100]
    rw [lineTotal_5995]
  · rw [runRecordSale, hrs]
    show some ([lineTotal (⟨1, 3, 5.995, 0, 0⟩ : SaleItem)].sum)
      = some (1798 / 100)
    rw [Option.some.injEq]
    show lineTotal (⟨1, 3, 5.995, 0, 0⟩ : SaleItem) + 0 = 1798 / 100
    rw [lineTotal_5995, add_zero]

/-- Claim C5 (amended): for every accepted batch, each stored line total is
`round(qty × (unitPrice − perUnitDiscount), 2)` computed independently per
line, the returned revenue is the sum of the already-rounded line totals
(never the rounded sum), and the line `{qty: 3, unitPrice: 5.995,
discount: 0}` yields line total 17.98 — Python rounds half-to-even and the
source's binary64 product falls below the 17.985 tie, not 17.99. -/
theorem record_sale_rounding (db db' : PharmacyDB) (inv : String)
    (items : List SaleItem) (r : ℚ)
    (h : record_sale db inv items = .ok (db', r)) :
    db'.sales = db.sales ++ items.map (saleRow inv) ∧
    (∀ it : SaleItem, (saleRow inv it).total
      = pyRound2 ((it.qty : ℚ) * (it.unitPrice - pyRound2 it.discount))) ∧
    r = (items.map lineTotal).sum ∧
    lineTotal ⟨1, 3, 5.995, 0, 0⟩ = 1798 / 100 := by
  obtain ⟨_, _, hS, _, _, hr⟩ := record_sale_ok h
  exact ⟨hS, fun it => rfl, hr, lineTotal_5995⟩

theorem record_sale_rounding_witness :
    exDbAfterSale.sales = exDb.sales
      ++ [⟨1, 2, 6, 4, 0⟩].map (saleRow "INV-X") ∧
    (∀ it : SaleItem, (saleRow "INV-X" it).total
      = pyRound2 ((it.qty : ℚ) * (it.unitPrice - pyRound2 it.discount))) ∧
    ([lineTotal ⟨1, 2, 6, 4, 0⟩]).sum
      = ([⟨1, 2, 6, 4, 0⟩].map lineTotal).sum ∧
    lineTotal ⟨1, 3, 5.995, 0, 0⟩ = 1798 / 100 :=
  record_sale_rounding exDb exDbAfterSale "INV-X" [⟨1, 2, 6, 4, 0⟩]
    ([lineTotal ⟨1, 2, 6, 4, 0⟩]).sum
    (record_sale_single exDb "INV-X" ⟨1, 2, 6, 4, 0⟩ exProduct
      (by show ¬ (2 : ℤ) ≤ 0; omega)
      (not_lt.mpr (lineTotal_nonneg 1 2 6 4 (by omega) (by norm_num)))
      (by decide)
      (by show ¬ (2 : ℤ) > (5 : ℤ); omega))

/-! ### Claim C6: the invoice sequencer -/

/-- Claim C6's formula exactly as worded: count the *distinct* invoice
identifiers that match the prefix `INV-YYMMDD-` by plain (case-sensitive)
string prefix comparison, add one, and pad to three digits. -/
def claimNextInvoice (todayStr : String) (db : PharmacyDB) : String :=
  let pat := "INV-" ++ todayStr ++ "-"
  let count :=
    ((db.sales.map (·.invoice)).dedup.filter
      (fun v => startsWithChars pat.data v.data)).length + 1
  "INV-" ++ todayStr ++ "-" ++ pad3 count

/-- The count the source actually computes: distinct invoice identifiers
matching `LIKE 'INV-YYMMDD-%'`, i.e. case-insensitively for ASCII. -/
def ciDistinctCount (todayStr : String) (db : PharmacyDB) : Nat :=
  ((db.sales.map (·.invoice)).dedup.filter
    (fun v => likeStartCI ("INV-" ++ todayStr ++ "-") v)).length

/-- A ledger whose only invoice identifier is lower-case `inv-250101-001`
(the invoice field is free text: `record_sale` accepts any string the
caller supplies). -/
def exDbLower : PharmacyDB :=
  { products := [exProduct],
    sales := [{ invoice := "inv-250101-001", productId := 1, qty := 1,
                unitPrice := 6, unitCost := 4, discount := 0, total := 6 }],
    stockAdjustments := [⟨1, 5, "Initial Stock Entry"⟩],
    nextProductId := 2 }

/-- Counterexample to claim C6 as stated: SQLite's `LIKE` is
case-insensitive for ASCII, so the lower-case invoice `inv-250101-001` is
counted by `generate_invoice` although it does not match the prefix
`INV-250101-`.  The code suggests `INV-250101-002`; the claim's formula
(plain prefix matching) yields `INV-250101-001`. -/
theorem invoice_seq_claim_false :
    generate_invoice "250101" exDbLower = "INV-250101-002" ∧
    claimNextInvoice "250101" exDbLower = "INV-250101-001" ∧
    ("INV-250101-002" : String) ≠ "INV-250101-001" := by
  refine ⟨by decide, by decide, by decide⟩

/-- `dedup` commutes with `filter`. -/
theorem dedup_filter {α : Type} [DecidableEq α] (q : α → Bool) :
    ∀ l : List α, (l.filter q).dedup = l.dedup.filter q := by
  intro l
  induction l with
  | nil => rfl
  | cons a l ih =>
    by_cases hq : q a = true
    · rw [List.filter_cons_of_pos hq]
      by_cases hm : a ∈ l
      · have hm' : a ∈ l.filter q := List.mem_filter.mpr ⟨hm, hq⟩
        rw [List.dedup_cons_of_mem hm', List.dedup_cons_of_mem hm, ih]
      · have hm' : a ∉ l.filter q := fun hc => hm (List.mem_of_mem_filter hc)
        rw [List.dedup_cons_of_not_mem hm', List.dedup_cons_of_not_mem hm,
          List.filter_cons_of_pos hq, ih]
    · rw [List.filter_cons_of_neg hq]
      by_cases hm : a ∈ l
      · rw [List.dedup_cons_of_mem hm, ih]
      · rw [List.dedup_cons_of_not_mem hm, List.filter_cons_of_neg hq, ih]

/-- `map` after `filter` on the preimage predicate. -/
theorem map_filter_comm {α β : Type} (f : α → β) (q : β → Bool)
    [DecidableEq β] :
    ∀ l : List α, (l.filter (fun a => q (f a))).map f = (l.map f).filter q := by
  intro l
  induction l with
  | nil => rfl
  | cons a l ih =>
    simp only [List.filter_cons, List.map_cons]
    by_cases hq : q (f a) = true
    · rw [if_pos hq, if_pos hq, List.map_cons, ih]
    · rw [if_neg hq, if_neg hq, ih]

/-- Claim C6 (amended): the suggestion for day `YYMMDD` is
`INV-YYMMDD-` followed by the 3-digit zero-padded successor of the number
of distinct invoice identifiers that match the prefix *case-insensitively*
(SQLite `LIKE` semantics).  The function reads the ledger and returns a
string; it performs no write (it is a plain function of the state here,
just as the source only executes a `SELECT`). -/
theorem generate_invoice_formula (todayStr : String) (db : PharmacyDB) :
    generate_invoice todayStr db
      = "INV-" ++ todayStr ++ "-" ++ pad3 (ciDistinctCount todayStr db + 1) := by
  simp only [generate_invoice, ciDistinctCount]
  rw [map_filter_comm (fun s : SaleLineRecord => s.invoice)
    (likeStartCI ("INV-" ++ todayStr ++ "-")),
    dedup_filter]

/-! ### Claim C10: the invoice suggestion can collide after an undo -/

/-- An empty, freshly initialised store. -/
def c10Base : PharmacyDB :=
  { products := [], sales := [], stockAdjustments := [], nextProductId := 1 }

/-- The single cart line used by both sales of the scenario. -/
def c10Item : SaleItem := ⟨1, 1, 6, 4, 0⟩

/-- The product row created by the scenario's `add_product`. -/
def c10ProdRow : Product :=
  { id := 1, name := "Amoxicillin 500mg", categoryId := none, quantity := 10,
    price := 6, cost := 4, reorderLevel := 2, supplier := some "Supplier D",
    expiryDate := none }

/-- The store after the `add_product`. -/
def c10S1lit : PharmacyDB :=
  { products := [c10ProdRow], sales := [],
    stockAdjustments := [⟨1, 10, "Initial Stock Entry"⟩],
    nextProductId := 2 }

/-- States of the scenario, produced through the application's own
operations. -/
def c10S1 : PharmacyDB :=
  runAddProduct c10Base "Amoxicillin 500mg" none 10 6 4 2 "Supplier D" none

def c10Inv1 : String := generate_invoice "251012" c10S1

def c10S2 : PharmacyDB := (runRecordSale c10S1 c10Inv1 [c10Item]).1

def c10Inv2 : String := generate_invoice "251012" c10S2

def c10S3 : PharmacyDB := (runRecordSale c10S2 c10Inv2 [c10Item]).1

def c10S4 : PharmacyDB := runUndo c10S3 c10Inv1

/-- The store after committing the first generated invoice. -/
def c10S2x : PharmacyDB :=
  { decrementStock c10S1lit c10Item with
    sales := c10S1lit.sales ++ [saleRow "INV-251012-001" c10Item] }

/-- The store after committing the second generated invoice. -/
def c10S3x : PharmacyDB :=
  { decrementStock c10S2x c10Item with
    sales := c10S2x.sales ++ [saleRow "INV-251012-002" c10Item] }

/-- Claim C10: a reachable collision of the invoice suggestion.  Starting
from an empty store: add a product, commit a sale under the suggested
`INV-251012-001`, commit a second sale under the then-suggested
`INV-251012-002`, and undo the first invoice.  Every step succeeds, and the
next suggestion, `generate_invoice`, now returns an identifier that is
already present in the Sale Ledger (it re-counts the remaining distinct
identifiers instead of remembering the highest sequence number issued). -/
theorem invoice_suggestion_collides :
    opOk (add_product c10Base "Amoxicillin 500mg" none 10 6 4 2
      "Supplier D" none) = true ∧
    c10Inv1 = "INV-251012-001" ∧
    opOk (record_sale c10S1 c10Inv1 [c10Item]) = true ∧
    c10Inv2 = "INV-251012-002" ∧
    opOk (record_sale c10S2 c10Inv2 [c10Item]) = true ∧
    opOk (undo_sale c10S3 c10Inv1) = true ∧
    (c10S4.sales.map (·.invoice)).contains
      (generate_invoice "251012" c10S4) = true := by
  have hn : ¬ lineTotal c10Item < 0 :=
    not_lt.mpr (lineTotal_nonneg 1 1 6 4 (by omega) (by norm_num))
  have hadd : add_product c10Base "Amoxicillin 500mg" none 10 6 4 2
      "Supplier D" none = .ok (c10S1lit, 1) := by
    decide
  have hS1 : c10S1 = c10S1lit := by
    unfold c10S1 runAddProduct
    rw [hadd]
  have hInv1 : c10Inv1 = "INV-251012-001" := by
    unfold c10Inv1
    rw [hS1]
    decide
  have hrs1 : record_sale c10S1lit "INV-251012-001" [c10Item]
      = .ok (c10S2x, ([lineTotal c10Item]).sum) :=
    record_sale_single c10S1lit "INV-251012-001" c10Item c10ProdRow
      (by show ¬ (1 : ℤ) ≤ 0; omega) hn (by decide)
      (by show ¬ (1 : ℤ) > (10 : ℤ); omega)
  have hS2 : c10S2 = c10S2x := by
    unfold c10S2
    rw [hS1, hInv1]
    unfold runRecordSale
    rw [hrs1]
  have hInv2 : c10Inv2 = "INV-251012-002" := by
    unfold c10Inv2
    rw [hS2]
    decide
  have hrs2 : record_sale c10S2x "INV-251012-002" [c10Item]
      = .ok (c10S3x, ([lineTotal c10Item]).sum) :=
    record_sale_single c10S2x "INV-251012-002" c10Item
      { c10ProdRow with quantity := 9 }
      (by show ¬ (1 : ℤ) ≤ 0; omega) hn (by decide)
      (by show ¬ (1 : ℤ) > (9 : ℤ); omega)
  have hS3 : c10S3 = c10S3x := by
    unfold c10S3
    rw [hS2, hInv2]
    unfold runRecordSale
    rw [hrs2]
  refine ⟨by rw [hadd]; rfl, hInv1, ?_, hInv2, ?_, ?_, ?_⟩
  · rw [hS1, hInv1, hrs1]
    rfl
  · rw [hS2, hInv2, hrs2]
    rfl
  · rw [hS3, hInv1]
    decide
  · show ((runUndo c10S3 c10Inv1).sales.map (·.invoice)).contains
      (generate_invoice "251012" (runUndo c10S3 c10Inv1)) = true
    rw [hS3, hInv1]
    decide

/-! ### Claim C1: preservation of the accounting invariant -/

theorem sum_map_append_singleton {α : Type} (f : α → ℤ) (l : List α)
    (x : α) : ((l ++ [x]).map f).sum = (l.map f).sum + f x := by
  rw [List.map_append, List.sum_append]
  simp

theorem sum_map_zero {α : Type} (f : α → ℤ) (l : List α)
    (h : ∀ x ∈ l, f x = 0) : (l.map f).sum = 0 := by
  apply List.sum_eq_zero
  intro x hx
  obtain ⟨a, ha, rfl⟩ := List.mem_map.mp hx
  exact h a ha

/-- Dropping the rows a Boolean predicate selects does not change a sum
whose summand vanishes on the selected rows. -/
theorem sum_map_filter_not {α : Type} (f : α → ℤ) (q : α → Bool) :
    ∀ l : List α, (∀ x ∈ l, q x = true → f x = 0) →
      ((l.filter (fun a => !(q a))).map f).sum = (l.map f).sum := by
  intro l
  induction l with
  | nil => intro _; rfl
  | cons a l ih =>
    intro h
    by_cases hq : q a = true
    · rw [List.filter_cons_of_neg (by simp [hq]), List.map_cons,
        List.sum_cons, h a (by simp) hq, zero_add,
        ih (fun x hx hqx => h x (by simp [hx]) hqx)]
    · have hq' : q a = false := by revert hq; cases q a <;> simp
      rw [List.filter_cons_of_pos (by simp [hq']), List.map_cons,
        List.map_cons, List.sum_cons, List.sum_cons,
        ih (fun x hx hqx => h x (by simp [hx]) hqx)]

/-- `adjust_stock` preserves id-freshness and the accounting identity. -/
theorem inv_adjust (db db' : PharmacyDB) (pid : Nat) (q : ℤ)
    (reason : String) (hf : FreshIds db) (hinv : AccountingInv db)
    (h : adjust_stock db pid q reason = .ok db') :
    FreshIds db' ∧ AccountingInv db' := by
  unfold adjust_stock at h
  split at h
  · exact absurd h (by simp)
  · split at h
    · exact absurd h (by simp)
    · cases hg : get_product db pid with
      | none => rw [hg] at h; exact absurd h (by simp)
      | some row =>
        simp only [hg] at h
        split at h
        · exact absurd h (by simp)
        · have h' := (Except.ok.injEq _ _).mp h
          subst h'
          have hg' : db.products.find? (fun p => p.id == pid) = some row := hg
          have hrow_mem : row ∈ db.products := List.mem_of_find?_eq_some hg'
          have hrow_id : row.id = pid := by
            have h0 := List.find?_some hg'
            simpa using h0
          obtain ⟨hfP, hfA, hfS⟩ := hf
          refine ⟨⟨?_, ?_, ?_⟩, ?_⟩
          · intro p' hp'
            obtain ⟨p, hp, hpe⟩ := List.mem_map.mp hp'
            have : p'.id = p.id := by
              by_cases hc : (p.id == pid) = true <;> simp [hc] at hpe <;>
                rw [← hpe]
            rw [this]
            exact hfP p hp
          · intro a ha
            rcases List.mem_append.mp ha with ha | ha
            · exact hfA a ha
            · have : a = ⟨pid, q, stripStr reason⟩ := by simpa using ha
              subst this
              show pid < db.nextProductId
              rw [← hrow_id]
              exact hfP row hrow_mem
          · exact hfS
          · intro p' hp'
            obtain ⟨p, hp, hpe⟩ := List.mem_map.mp hp'
            have hadj : adjTotal
                { db with
                  products := updateById db.products pid
                    (fun r => { r with quantity := row.quantity + q })
                  stockAdjustments := db.stockAdjustments
                    ++ [⟨pid, q, stripStr reason⟩] } p'.id
                = adjTotal db p'.id
                  + (if pid = p'.id then q else 0) := by
              show ((db.stockAdjustments ++ [_]).map _).sum = _
              rw [sum_map_append_singleton]
              rfl
            have hsale : saleTotal
                { db with
                  products := updateById db.products pid
                    (fun r => { r with quantity := row.quantity + q })
                  stockAdjustments := db.stockAdjustments
                    ++ [⟨pid, q, stripStr reason⟩] } p'.id
                = saleTotal db p'.id := rfl
            rw [hadj, hsale]
            by_cases hc : (p.id == pid) = true
            · have hc' : p.id = pid := by simpa using hc
              simp only [if_pos hc] at hpe
              have hid' : p'.id = p.id := by rw [← hpe]
              have hq' : p'.quantity = row.quantity + q := by rw [← hpe]
              have hrow_inv := hinv row hrow_mem
              rw [hq', hid', hc', if_pos rfl, ← hrow_id]
              rw [hrow_id] at hrow_inv ⊢
              omega
            · simp only [if_neg hc] at hpe
              subst hpe
              have hcc : ¬ pid = p.id := fun hcc => hc (by simp [hcc])
              rw [if_neg hcc, add_zero]
              exact hinv p hp

/-- A successful sale line exposes the product row it validated against. -/
theorem applySaleLine_ok_found {db db₁ : PharmacyDB} {inv : String}
    {it : SaleItem} (h : applySaleLine db inv it = .ok db₁) :
    ∃ row, get_product db it.productId = some row := by
  rw [applySaleLine] at h
  split at h
  · exact absurd h (by simp)
  · split at h
    · exact absurd h (by simp)
    · cases hg : get_product db it.productId with
      | none => rw [hg] at h; exact absurd h (by simp)
      | some row => exact ⟨row, rfl⟩

/-- One sale line preserves id-freshness and the accounting identity. -/
theorem inv_saleLine (db db₁ : PharmacyDB) (inv : String) (it : SaleItem)
    (hf : FreshIds db) (hinv : AccountingInv db)
    (h : applySaleLine db inv it = .ok db₁) :
    FreshIds db₁ ∧ AccountingInv db₁ := by
  obtain ⟨hP, hS, hA, hN⟩ := applySaleLine_ok h
  obtain ⟨row, hg⟩ := applySaleLine_ok_found h
  have hg' : db.products.find? (fun p => p.id == it.productId) = some row := hg
  have hrow_id : row.id = it.productId := by
    have h0 := List.find?_some hg'
    simpa using h0
  have hrow_mem : row ∈ db.products := List.mem_of_find?_eq_some hg'
  obtain ⟨hfP, hfA, hfS⟩ := hf
  refine ⟨⟨?_, ?_, ?_⟩, ?_⟩
  · intro p' hp'
    rw [hP] at hp'
    obtain ⟨p, hp, hpe⟩ := List.mem_map.mp hp'
    have : p'.id = p.id := by
      by_cases hc : (p.id == it.productId) = true <;> simp [hc] at hpe <;>
        rw [← hpe]
    rw [hN, this]
    exact hfP p hp
  · intro a ha
    rw [hA] at ha
    rw [hN]
    exact hfA a ha
  · intro s hs
    rw [hS] at hs
    rcases List.mem_append.mp hs with hs | hs
    · rw [hN]
      exact hfS s hs
    · have : s = saleRow inv it := by simpa using hs
      subst this
      show it.productId < _
      rw [hN, ← hrow_id]
      exact hfP row hrow_mem
  · intro p' hp'
    rw [hP] at hp'
    obtain ⟨p, hp, hpe⟩ := List.mem_map.mp hp'
    have hadj : adjTotal db₁ p'.id = adjTotal db p'.id := by
      show (db₁.stockAdjustments.map _).sum = _
      rw [hA]
      rfl
    have hsale : saleTotal db₁ p'.id
        = saleTotal db p'.id + (if it.productId = p'.id then it.qty else 0) := by
      show (db₁.sales.map _).sum = _
      rw [hS, sum_map_append_singleton]
      rfl
    rw [hadj, hsale]
    by_cases hc : (p.id == it.productId) = true
    · have hc' : p.id = it.productId := by simpa using hc
      simp only [if_pos hc] at hpe
      have hid' : p'.id = p.id := by rw [← hpe]
      have hq' : p'.quantity = p.quantity + -it.qty := by rw [← hpe]
      have hp_inv := hinv p hp
      rw [hq', hid', hc', if_pos rfl]
      rw [hc'] at hp_inv
      omega
    · simp only [if_neg hc] at hpe
      subst hpe
      have hcc : ¬ it.productId = p.id := fun hcc => hc (by simp [hcc])
      rw [if_neg hcc, add_zero]
      exact hinv p hp

/-- The `record_sale` loop preserves id-freshness and the accounting
identity. -/
theorem inv_record_go (inv : String) :
    ∀ (items : List SaleItem) (db db' : PharmacyDB) (ts : List ℚ),
      FreshIds db → AccountingInv db →
      record_sale_go inv db items = .ok (db', ts) →
      FreshIds db' ∧ AccountingInv db' := by
  intro items
  induction items with
  | nil =>
    intro db db' ts hf hinv h
    simp only [record_sale_go, Except.ok.injEq, Prod.mk.injEq] at h
    obtain ⟨h1, _⟩ := h
    subst h1
    exact ⟨hf, hinv⟩
  | cons it rest ih =>
    intro db db' ts hf hinv h
    cases ha : applySaleLine db inv it with
    | error e =>
      simp only [record_sale_go, ha] at h
      exact absurd h (by simp)
    | ok db₁ =>
      cases hg : record_sale_go inv db₁ rest with
      | error e =>
        simp only [record_sale_go, ha, hg] at h
        exact absurd h (by simp)
      | ok pr =>
        obtain ⟨db₂, ts₂⟩ := pr
        simp only [record_sale_go, ha, hg, Except.ok.injEq,
          Prod.mk.injEq] at h
        obtain ⟨h1, _⟩ := h
        subst h1
        obtain ⟨hf₁, hinv₁⟩ := inv_saleLine db db₁ inv it hf hinv ha
        exact ih _ _ _ hf₁ hinv₁ hg

/-- `add_product` preserves id-freshness and the accounting identity. -/
theorem inv_add (db db' : PharmacyDB) (name : String)
    (categoryId : Option Nat) (quantity : Int) (price cost : ℚ)
    (reorderLevel : Int) (supplier : String) (expiryDate : Option String)
    (pid : Nat) (hf : FreshIds db) (hinv : AccountingInv db)
    (h : add_product db name categoryId quantity price cost reorderLevel
      supplier expiryDate = .ok (db', pid)) :
    FreshIds db' ∧ AccountingInv db' := by
  obtain ⟨hfP, hfA, hfS⟩ := hf
  simp only [add_product] at h
  split at h
  · exact absurd h (by simp)
  · split at h
    · exact absurd h (by simp)
    · rename_i hval
      have hqnn : ¬ quantity < 0 := fun hc =>
        hval (Or.inr (Or.inr (Or.inl hc)))
      generalize (if stripStr supplier = "" then none
        else some (stripStr supplier)) = supOpt at h
      split at h
      · rename_i hqpos
        simp only [Except.ok.injEq, Prod.mk.injEq] at h
        obtain ⟨h1, h2⟩ := h
        subst h1
        refine ⟨⟨?_, ?_, ?_⟩, ?_⟩
        · intro p' hp'
          rcases List.mem_append.mp hp' with hp' | hp'
          · have := hfP p' hp'
            show p'.id < db.nextProductId + 1
            omega
          · have hp'eq := List.mem_singleton.mp hp'
            subst hp'eq
            show db.nextProductId < db.nextProductId + 1
            omega
        · intro a ha
          rcases List.mem_append.mp ha with ha | ha
          · have := hfA a ha
            show a.productId < db.nextProductId + 1
            omega
          · have haeq := List.mem_singleton.mp ha
            subst haeq
            show db.nextProductId < db.nextProductId + 1
            omega
        · intro s hs
          have := hfS s hs
          show s.productId < db.nextProductId + 1
          omega
        · intro p' hp'
          have hadj : ∀ t : Nat, adjTotal
              { products := db.products ++
                  [{ id := db.nextProductId, name := stripStr name,
                     categoryId := categoryId, quantity := quantity,
                     price := price, cost := cost,
                     reorderLevel := reorderLevel, supplier := supOpt,
                     expiryDate := expiryDate }],
                sales := db.sales,
                stockAdjustments := db.stockAdjustments ++
                  [⟨db.nextProductId, quantity, "Initial Stock Entry"⟩],
                nextProductId := db.nextProductId + 1 } t
              = adjTotal db t
                + (if db.nextProductId = t then quantity else 0) := by
            intro t
            show ((db.stockAdjustments ++ [_]).map _).sum = _
            rw [sum_map_append_singleton]
            rfl
          rcases List.mem_append.mp hp' with hp' | hp'
          · have hlt := hfP p' hp'
            rw [hadj p'.id, if_neg (by omega), add_zero]
            exact hinv p' hp'
          · have hp'eq := List.mem_singleton.mp hp'
            subst hp'eq
            rw [hadj]
            show quantity = adjTotal db db.nextProductId
              + (if db.nextProductId = db.nextProductId then quantity else 0)
              - saleTotal db db.nextProductId
            have hz1 : adjTotal db db.nextProductId = 0 := by
              apply sum_map_zero
              intro a ha
              rw [if_neg (by have := hfA a ha; omega)]
            have hz2 : saleTotal db db.nextProductId = 0 := by
              apply sum_map_zero
              intro s hs
              rw [if_neg (by have := hfS s hs; omega)]
            rw [hz1, hz2, if_pos rfl]
            omega
      · rename_i hqz
        have hq0 : quantity = 0 := by omega
        simp only [Except.ok.injEq, Prod.mk.injEq] at h
        obtain ⟨h1, h2⟩ := h
        subst h1
        refine ⟨⟨?_, ?_, ?_⟩, ?_⟩
        · intro p' hp'
          rcases List.mem_append.mp hp' with hp' | hp'
          · have := hfP p' hp'
            show p'.id < db.nextProductId + 1
            omega
          · have hp'eq := List.mem_singleton.mp hp'
            subst hp'eq
            show db.nextProductId < db.nextProductId + 1
            omega
        · intro a ha
          have := hfA a ha
          show a.productId < db.nextProductId + 1
          omega
        · intro s hs
          have := hfS s hs
          show s.productId < db.nextProductId + 1
          omega
        · intro p' hp'
          rcases List.mem_append.mp hp' with hp' | hp'
          · exact hinv p' hp'
          · have hp'eq := List.mem_singleton.mp hp'
            subst hp'eq
            show quantity = adjTotal db db.nextProductId
              - saleTotal db db.nextProductId
            have hz1 : adjTotal db db.nextProductId = 0 := by
              apply sum_map_zero
              intro a ha
              rw [if_neg (by have := hfA a ha; omega)]
            have hz2 : saleTotal db db.nextProductId = 0 := by
              apply sum_map_zero
              intro s hs
              rw [if_neg (by have := hfS s hs; omega)]
            rw [hz1, hz2]
            omega

/-- `update_product` preserves id-freshness and the accounting identity. -/
theorem inv_update (db db' : PharmacyDB) (pid : Nat) (name : String)
    (categoryId : Option Nat) (price cost : ℚ)
    (newQuantity reorderLevel : Int) (supplier : String)
    (expiryDate : Option String)
    (hf : FreshIds db) (hinv : AccountingInv db)
    (h : update_product db pid name categoryId price cost newQuantity
      reorderLevel supplier expiryDate = .ok db') :
    FreshIds db' ∧ AccountingInv db' := by
  obtain ⟨hfP, hfA, hfS⟩ := hf
  simp only [update_product] at h
  split at h
  · exact absurd h (by simp)
  · split at h
    · exact absurd h (by simp)
    · cases hg : get_product db pid with
      | none => rw [hg] at h; exact absurd h (by simp)
      | some row =>
        have hg' : db.products.find? (fun p => p.id == pid) = some row := hg
        have hrow_mem : row ∈ db.products := List.mem_of_find?_eq_some hg'
        have hrow_id : row.id = pid := by
          have h0 := List.find?_some hg'
          simpa using h0
        have hrow_inv := hinv row hrow_mem
        simp only [hg] at h
        generalize (if stripStr supplier = "" then none
          else some (stripStr supplier)) = supOpt at h
        have hfreshP : ∀ (A : List AdjustmentRecord),
            (∀ a ∈ A, a.productId < db.nextProductId) →
            FreshIds
              { products := updateById db.products pid (fun p =>
                  { p with
                    name := stripStr name
                    categoryId := categoryId
                    price := price
                    cost := cost
                    quantity := newQuantity
                    reorderLevel := reorderLevel
                    supplier := supOpt
                    expiryDate := expiryDate })
                sales := db.sales
                stockAdjustments := A
                nextProductId := db.nextProductId } := by
          intro A hA
          refine ⟨?_, hA, hfS⟩
          intro p' hp'
          obtain ⟨p, hp, hpe⟩ := List.mem_map.mp hp'
          have : p'.id = p.id := by
            by_cases hc : (p.id == pid) = true <;> simp [hc] at hpe <;>
              rw [← hpe]
          rw [this]
          exact hfP p hp
        split at h
        · rename_i hdelta
          have h' := (Except.ok.injEq _ _).mp h
          subst h'
          refine ⟨hfreshP _ ?_, ?_⟩
          · intro a ha
            rcases List.mem_append.mp ha with ha | ha
            · exact hfA a ha
            · have haeq := List.mem_singleton.mp ha
              subst haeq
              show pid < db.nextProductId
              rw [← hrow_id]
              exact hfP row hrow_mem
          · intro p' hp'
            obtain ⟨p, hp, hpe⟩ := List.mem_map.mp hp'
            have hadj : ∀ t : Nat, adjTotal
                { products := updateById db.products pid (fun p =>
                    { p with
                      name := stripStr name
                      categoryId := categoryId
                      price := price
                      cost := cost
                      quantity := newQuantity
                      reorderLevel := reorderLevel
                      supplier := supOpt
                      expiryDate := expiryDate })
                  sales := db.sales
                  stockAdjustments := db.stockAdjustments ++
                    [⟨pid, newQuantity - row.quantity,
                      "Manual Edit/Correction (New Qty: "
                        ++ toString newQuantity ++ ")"⟩]
                  nextProductId := db.nextProductId } t
                = adjTotal db t
                  + (if pid = t then newQuantity - row.quantity else 0) := by
              intro t
              show ((db.stockAdjustments ++ [_]).map _).sum = _
              rw [sum_map_append_singleton]
              rfl
            rw [hadj p'.id]
            by_cases hc : (p.id == pid) = true
            · have hc' : p.id = pid := by simpa using hc
              simp only [if_pos hc] at hpe
              have hid' : p'.id = p.id := by rw [← hpe]
              have hq' : p'.quantity = newQuantity := by rw [← hpe]
              rw [hq', hid', hc', if_pos rfl]
              rw [hrow_id] at hrow_inv
              show newQuantity = adjTotal db pid
                + (newQuantity - row.quantity) - saleTotal db pid
              omega
            · simp only [if_neg hc] at hpe
              subst hpe
              have hcc : ¬ pid = p.id := fun hcc => hc (by simp [hcc])
              rw [if_neg hcc, add_zero]
              exact hinv p hp
        · rename_i hdelta
          have hdq : newQuantity = row.quantity := by omega
          have h' := (Except.ok.injEq _ _).mp h
          subst h'
          refine ⟨hfreshP _ hfA, ?_⟩
          intro p' hp'
          obtain ⟨p, hp, hpe⟩ := List.mem_map.mp hp'
          by_cases hc : (p.id == pid) = true
          · have hc' : p.id = pid := by simpa using hc
            simp only [if_pos hc] at hpe
            have hid' : p'.id = p.id := by rw [← hpe]
            have hq' : p'.quantity = newQuantity := by rw [← hpe]
            rw [hrow_id] at hrow_inv
            show p'.quantity = adjTotal db p'.id - saleTotal db p'.id
            rw [hq', hid', hc']
            omega
          · simp only [if_neg hc] at hpe
            subst hpe
            exact hinv p hp

/-- `delete_product` preserves id-freshness and the accounting identity. -/
theorem inv_delete (db db' : PharmacyDB) (pid : Nat)
    (hf : FreshIds db) (hinv : AccountingInv db)
    (h : delete_product db pid = .ok db') :
    FreshIds db' ∧ AccountingInv db' := by
  obtain ⟨hfP, hfA, hfS⟩ := hf
  simp only [delete_product] at h
  split at h
  · exact absurd h (by simp)
  · split at h
    · have h' := (Except.ok.injEq _ _).mp h
      subst h'
      refine ⟨⟨?_, ?_, hfS⟩, ?_⟩
      · intro p' hp'
        exact hfP p' (List.mem_of_mem_filter hp')
      · intro a ha
        exact hfA a (List.mem_of_mem_filter ha)
      · intro p' hp'
        have hp'mem := List.mem_of_mem_filter hp'
        have hp'keep := List.of_mem_filter hp'
        have hp'ne : p'.id ≠ pid := by
          intro hc
          rw [hc] at hp'keep
          simp at hp'keep
        have hadj : adjTotal
            { db with
              products := db.products.filter (fun p => !(p.id == pid))
              stockAdjustments :=
                db.stockAdjustments.filter (fun a => !(a.productId == pid)) }
            p'.id = adjTotal db p'.id := by
          show ((db.stockAdjustments.filter _).map _).sum = _
          apply sum_map_filter_not
          intro a _ hq
          have ha' : a.productId = pid := by simpa using hq
          rw [if_neg (by rw [ha']; exact fun hc => hp'ne hc.symm)]
        rw [hadj]
        exact hinv p' hp'mem
    · exact absurd h (by simp)

/-- `undo_sale` preserves id-freshness and the accounting identity. -/
theorem inv_undo (db db' : PharmacyDB) (inv : String)
    (hf : FreshIds db) (hinv : AccountingInv db)
    (h : undo_sale db inv = .ok db') :
    FreshIds db' ∧ AccountingInv db' := by
  obtain ⟨hne, hP, hS, hA, hN⟩ := undo_sale_ok h
  obtain ⟨hfP, hfA, hfS⟩ := hf
  refine ⟨⟨?_, ?_, ?_⟩, ?_⟩
  · intro p' hp'
    rw [hP, applyDeltas_eq_map] at hp'
    obtain ⟨p, hp, hpe⟩ := List.mem_map.mp hp'
    have : p'.id = p.id := by rw [← hpe]
    rw [hN, this]
    exact hfP p hp
  · intro a ha
    rw [hA] at ha
    rw [hN]
    exact hfA a ha
  · intro s hs
    rw [hS] at hs
    rw [hN]
    exact hfS s (List.mem_of_mem_filter hs)
  · intro p' hp'
    rw [hP, applyDeltas_eq_map] at hp'
    obtain ⟨p, hp, hpe⟩ := List.mem_map.mp hp'
    have hid : p'.id = p.id := by rw [← hpe]
    have hqe : p'.quantity = p.quantity
        + deltaSum ((db.sales.filter (fun s => s.invoice == inv)).map
            (fun s => (s.productId, s.qty))) p.id := by
      rw [← hpe]
    have hmapsum : deltaSum ((db.sales.filter (fun s => s.invoice == inv)).map
          (fun s => (s.productId, s.qty))) p.id
        = ((db.sales.filter (fun s => s.invoice == inv)).map
            (fun s => if s.productId = p.id then s.qty else 0)).sum := by
      show (List.map _ (List.map _ _)).sum = _
      rw [List.map_map]
      rfl
    have hadj : adjTotal db' p'.id = adjTotal db p'.id := by
      show (db'.stockAdjustments.map _).sum = _
      rw [hA]
      rfl
    have hsale : saleTotal db' p'.id
        = ((db.sales.filter (fun s => !(s.invoice == inv))).map
            (fun s => if s.productId = p.id then s.qty else 0)).sum := by
      show (db'.sales.map _).sum = _
      rw [hS, hid]
    have hsplit : ((db.sales.filter (fun s => s.invoice == inv)).map
          (fun s => if s.productId = p.id then s.qty else 0)).sum
        + ((db.sales.filter (fun s => !(s.invoice == inv))).map
          (fun s => if s.productId = p.id then s.qty else 0)).sum
        = (db.sales.map (fun s => if s.productId = p.id then s.qty else 0)).sum :=
      sum_map_filter_split _ _ _
    have hpinv := hinv p hp
    have hsdef : saleTotal db p.id
        = (db.sales.map (fun s => if s.productId = p.id then s.qty else 0)).sum :=
      rfl
    rw [hadj, hsale, hid, hqe, hmapsum]
    omega

/-- Claim C1: the accounting invariant.  Starting from any id-fresh state
satisfying the accounting identity, every completed (successful) ledger
operation — `add_product`, `update_product`, `adjust_stock`,
`record_sale`, `undo_sale` or `delete_product` — yields a state in which,
for every product, the quantity equals the sum of its Adjustment Ledger
deltas minus the sum of the quantities of its currently-present Sale
Ledger rows (an operation that raises an error is rolled back and leaves
the state — and hence the invariant — untouched). -/
theorem accounting_invariant_preserved (db db' : PharmacyDB) (op : LedgerOp)
    (hf : FreshIds db) (hinv : AccountingInv db)
    (h : applyOp db op = .ok db') :
    FreshIds db' ∧ AccountingInv db' := by
  cases op with
  | addProduct n c q pr co rl sup ed =>
    simp only [applyOp] at h
    cases hx : add_product db n c q pr co rl sup ed with
    | error e =>
      rw [hx] at h
      exact absurd h (by simp [Except.map])
    | ok pr' =>
      obtain ⟨db₂, pid⟩ := pr'
      rw [hx] at h
      simp only [Except.map, Except.ok.injEq] at h
      subst h
      exact inv_add db db₂ n c q pr co rl sup ed pid hf hinv hx
  | updateProduct pid n c pr co nq rl sup ed =>
    exact inv_update db db' pid n c pr co nq rl sup ed hf hinv h
  | adjustStock pid q r =>
    exact inv_adjust db db' pid q r hf hinv h
  | recordSale inv items =>
    simp only [applyOp] at h
    cases hx : record_sale db inv items with
    | error e =>
      rw [hx] at h
      exact absurd h (by simp [Except.map])
    | ok pr' =>
      obtain ⟨db₂, r⟩ := pr'
      rw [hx] at h
      simp only [Except.map, Except.ok.injEq] at h
      subst h
      rw [record_sale] at hx
      split at hx
      · exact absurd hx (by simp)
      · cases hg : record_sale_go inv db items with
        | error e => rw [hg] at hx; exact absurd hx (by simp)
        | ok pr'' =>
          obtain ⟨db₃, ts⟩ := pr''
          rw [hg] at hx
          simp only [Except.ok.injEq, Prod.mk.injEq] at hx
          obtain ⟨hx1, _⟩ := hx
          subst hx1
          exact inv_record_go inv items _ _ _ hf hinv hg
  | undoSale inv =>
    exact inv_undo db db' inv hf hinv h
  | deleteProduct pid =>
    exact inv_delete db db' pid hf hinv h

instance (db : PharmacyDB) : Decidable (FreshIds db) := by
  unfold FreshIds
  exact inferInstance

instance (db : PharmacyDB) : Decidable (AccountingInv db) := by
  unfold AccountingInv
  exact inferInstance

/-- The state of `exDb` after a restock adjustment of +3. -/
def exDbAdj : PharmacyDB :=
  { products := [{ exProduct with quantity := 8 }], sales := [],
    stockAdjustments := [⟨1, 5, "Initial Stock Entry"⟩, ⟨1, 3, "restock"⟩],
    nextProductId := 2 }

theorem accounting_invariant_preserved_witness :
    FreshIds exDbAdj ∧ AccountingInv exDbAdj :=
  accounting_invariant_preserved exDb exDbAdj (.adjustStock 1 3 "restock")
    (by decide) (by decide) (by decide)

/-- Run one ledger operation, keeping the old state on error. -/
def runOp (db : PharmacyDB) (op : LedgerOp) : PharmacyDB :=
  match applyOp db op with
  | .ok db' => db'
  | .error _ => db

/-- A store whose Adjustment Ledger holds a stale row for the yet-unissued
product id 1 (no foreign-key enforcement stops this: the application never
issues `PRAGMA foreign_keys = ON`, and the `AUTOINCREMENT` sequence only
remembers ids previously used in `products`). -/
def exDbStale : PharmacyDB :=
  { products := [], sales := [], stockAdjustments := [⟨1, 7, "stale"⟩],
    nextProductId := 1 }

/-- Counterexample to claim C1 as stated, i.e. quantified over *any* state
satisfying the accounting identity.  `exDbStale` satisfies the identity
vacuously (it has no products), yet a successful `add_product` with
starting quantity 5 reuses id 1 and lands in a state that violates it: the
new product has quantity 5 while its adjustment deltas sum to 7 + 5 = 12.
The identity is only preserved from states whose ledgers reference no
not-yet-issued id. -/
theorem accounting_invariant_claim_false :
    AccountingInv exDbStale ∧
    opOk (applyOp exDbStale
      (.addProduct "Aspirin 325mg" none 5 3 2 1 "" none)) = true ∧
    ¬ AccountingInv (runOp exDbStale
      (.addProduct "Aspirin 325mg" none 5 3 2 1 "" none)) := by
  decide
